import Mathlib

/-!
# Country cache API: the refresh pipeline

A shallow embedding of `src/utils/fetchers.js` and of `handleRefresh` in
`src/controllers/countries.js`, with the JavaScript values, coercions and the
transactional store the handler runs against.

Numbers are exact: a finite JavaScript number is a rational, next to `NaN` and the two
infinities. Rounding to binary64 and the sign of zero are not represented. Strings are
sequences of UTF-16 code units. A property read looks at the own members of a value and
then at its prototype chain, with the built-in prototypes as Node provides them; the
conversions to a string and to a number throw where the engine does.
-/

set_option autoImplicit false

namespace CountryCache

/-! ## JavaScript numbers -/

/-- A JavaScript number: a finite value, `NaN`, `Infinity` or `-Infinity`. -/
inductive JSNum
  | fin (q : ℚ)
  | nan
  | posInf
  | negInf
  deriving DecidableEq

namespace JSNum

instance (n : Nat) : OfNat JSNum n := ⟨fin (n : ℚ)⟩

instance : Inhabited JSNum := ⟨fin 0⟩

/-- Sign of a number that is not `NaN`: `-1`, `0` or `1` (`0` for `NaN` as well). -/
def sgn : JSNum → Int
  | fin q => if q = 0 then 0 else if 0 < q then 1 else -1
  | nan => 0
  | posInf => 1
  | negInf => -1

/-- The infinity of the given sign, `NaN` for sign `0`. -/
def infOfSign (s : Int) : JSNum :=
  if s = 0 then nan else if 0 < s then posInf else negInf

/-- The `*` operator. -/
def mul : JSNum → JSNum → JSNum
  | nan, _ => nan
  | _, nan => nan
  | fin a, fin b => fin (a * b)
  | a, b => infOfSign (sgn a * sgn b)

/-- The `+` operator on numbers. -/
def add : JSNum → JSNum → JSNum
  | nan, _ => nan
  | _, nan => nan
  | fin a, fin b => fin (a + b)
  | posInf, negInf => nan
  | negInf, posInf => nan
  | posInf, _ => posInf
  | _, posInf => posInf
  | negInf, _ => negInf
  | _, negInf => negInf

/-- Unary minus. -/
def neg : JSNum → JSNum
  | fin a => fin (-a)
  | nan => nan
  | posInf => negInf
  | negInf => posInf

/-- The `-` operator. -/
def sub (a b : JSNum) : JSNum := add a (neg b)

/-- The `/` operator. A finite non-zero value over zero is the infinity of its sign. -/
def div : JSNum → JSNum → JSNum
  | nan, _ => nan
  | _, nan => nan
  | fin a, fin b => if b = 0 then infOfSign (sgn (fin a)) else fin (a / b)
  | fin _, _ => fin 0
  | posInf, fin b => if 0 ≤ b then posInf else negInf
  | negInf, fin b => if 0 ≤ b then negInf else posInf
  | _, _ => nan

instance : Mul JSNum := ⟨mul⟩
instance : Add JSNum := ⟨add⟩
instance : Sub JSNum := ⟨sub⟩
instance : Div JSNum := ⟨div⟩

/-- The order used by `ORDER BY ... DESC` on stored numbers; `NaN` sorts lowest. -/
def ble : JSNum → JSNum → Bool
  | nan, _ => true
  | _, nan => false
  | negInf, _ => true
  | _, negInf => false
  | _, posInf => true
  | posInf, _ => false
  | fin a, fin b => decide (a ≤ b)

end JSNum

/-! ## JavaScript strings -/

/-- A UTF-16 code unit. -/
abbrev CodeUnit := Fin 65536

/-- A JavaScript string: a sequence of UTF-16 code units, lone surrogates included. -/
abbrev JSString := List CodeUnit

/-- The code unit of value `n` modulo 65536. -/
def CodeUnit.ofNat (n : Nat) : CodeUnit := ⟨n % 65536, Nat.mod_lt n (by decide)⟩

/-- The code units of one character: itself, or a surrogate pair above the basic plane. -/
def encodeChar (c : Char) : JSString :=
  let v := c.toNat
  if v < 0x10000 then [CodeUnit.ofNat v]
  else
    [CodeUnit.ofNat (0xD800 + (v - 0x10000) / 0x400),
      CodeUnit.ofNat (0xDC00 + (v - 0x10000) % 0x400)]

/-- The JavaScript string written `s` in the source. -/
def js (s : String) : JSString := s.toList.flatMap encodeChar

/-! ## JavaScript values -/

/-- A value as `JSON.parse` builds it: `null`, a boolean, a number, a string, an array or a
plain object with its own members in order. The same type holds the numbers the handler
computes, `NaN` included. -/
inductive Json
  | null
  | bool (b : Bool)
  | num (n : JSNum)
  | str (s : JSString)
  | arr (items : List Json)
  | obj (fields : List (JSString × Json))

mutual
/-- Decision procedure for equality of values. -/
def Json.decEq : (a b : Json) → Decidable (a = b)
  | .null, .null => isTrue rfl
  | .bool a, .bool b =>
    if h : a = b then isTrue (by rw [h]) else isFalse (by intro e; cases e; exact h rfl)
  | .num a, .num b =>
    if h : a = b then isTrue (by rw [h]) else isFalse (by intro e; cases e; exact h rfl)
  | .str a, .str b =>
    if h : a = b then isTrue (by rw [h]) else isFalse (by intro e; cases e; exact h rfl)
  | .arr a, .arr b =>
    match Json.decEqList a b with
    | isTrue h => isTrue (by rw [h])
    | isFalse h => isFalse (by intro e; cases e; exact h rfl)
  | .obj a, .obj b =>
    match Json.decEqFields a b with
    | isTrue h => isTrue (by rw [h])
    | isFalse h => isFalse (by intro e; cases e; exact h rfl)
  | .null, .bool _ | .null, .num _ | .null, .str _ | .null, .arr _ | .null, .obj _ =>
    isFalse (by intro e; cases e)
  | .bool _, .null | .bool _, .num _ | .bool _, .str _ | .bool _, .arr _ | .bool _, .obj _ =>
    isFalse (by intro e; cases e)
  | .num _, .null | .num _, .bool _ | .num _, .str _ | .num _, .arr _ | .num _, .obj _ =>
    isFalse (by intro e; cases e)
  | .str _, .null | .str _, .bool _ | .str _, .num _ | .str _, .arr _ | .str _, .obj _ =>
    isFalse (by intro e; cases e)
  | .arr _, .null | .arr _, .bool _ | .arr _, .num _ | .arr _, .str _ | .arr _, .obj _ =>
    isFalse (by intro e; cases e)
  | .obj _, .null | .obj _, .bool _ | .obj _, .num _ | .obj _, .str _ | .obj _, .arr _ =>
    isFalse (by intro e; cases e)
/-- Decision procedure for equality of element lists. -/
def Json.decEqList : (as bs : List Json) → Decidable (as = bs)
  | [], [] => isTrue rfl
  | [], _ :: _ => isFalse (by intro e; cases e)
  | _ :: _, [] => isFalse (by intro e; cases e)
  | a :: as, b :: bs =>
    match Json.decEq a b, Json.decEqList as bs with
    | isTrue h, isTrue t => isTrue (by rw [h, t])
    | isFalse h, _ => isFalse (by intro e; cases e; exact h rfl)
    | _, isFalse t => isFalse (by intro e; cases e; exact t rfl)
/-- Decision procedure for equality of member lists. -/
def Json.decEqFields : (as bs : List (JSString × Json)) → Decidable (as = bs)
  | [], [] => isTrue rfl
  | [], _ :: _ => isFalse (by intro e; cases e)
  | _ :: _, [] => isFalse (by intro e; cases e)
  | (k, a) :: as, (l, b) :: bs =>
    if hk : k = l then
      match Json.decEq a b, Json.decEqFields as bs with
      | isTrue h, isTrue t => isTrue (by rw [hk, h, t])
      | isFalse h, _ => isFalse (by intro e; cases e; exact h rfl)
      | _, isFalse t => isFalse (by intro e; cases e; exact t rfl)
    else isFalse (by intro e; cases e; exact hk rfl)
end

instance : DecidableEq Json := Json.decEq

instance : Inhabited Json := ⟨.null⟩

/-- The built-in prototypes a JSON value inherits from. -/
inductive Proto
  | object
  | array
  | string
  | number
  | boolean
  deriving DecidableEq

/-- A built-in object of the engine that a property read on a JSON value can yield: a
method of a prototype, the constructor a prototype names, or a prototype itself. -/
inductive Host
  | method (owner : Proto) (name : String)
  | ctor (p : Proto)
  | prototype (p : Proto)
  deriving DecidableEq

/-- A value the handler can hold: `undefined`, a JSON-like value, or a built-in object
obtained by reading an inherited member. -/
inductive JSValue
  | undefined
  | json (j : Json)
  | host (h : Host)
  deriving DecidableEq

instance : Inhabited JSValue := ⟨.undefined⟩

/-- The value `null`. -/
@[match_pattern, reducible] def JSValue.null : JSValue := .json .null

/-- A number as a value. -/
@[match_pattern, reducible] def JSValue.num (n : JSNum) : JSValue := .json (.num n)

/-- A string as a value. -/
@[match_pattern, reducible] def JSValue.str (s : JSString) : JSValue := .json (.str s)

/-- What a `throw` carries, as far as `catch (err)` in this program can tell errors apart. -/
inductive Thrown
  | typeError
  | storeError
  | fileError
  deriving DecidableEq

/-- Equality of results is decidable. -/
instance instDecidableEqExcept {ε α : Type} [DecidableEq ε] [DecidableEq α] :
    DecidableEq (Except ε α)
  | .ok a, .ok b =>
    if h : a = b then isTrue (by rw [h]) else isFalse (by intro e; cases e; exact h rfl)
  | .error a, .error b =>
    if h : a = b then isTrue (by rw [h]) else isFalse (by intro e; cases e; exact h rfl)
  | .ok _, .error _ => isFalse (by intro e; cases e)
  | .error _, .ok _ => isFalse (by intro e; cases e)

/-- ToBoolean: the test applied by `||`, `&&`, `!` and `if`. Every object is truthy. -/
def truthy : JSValue → Bool
  | .undefined => false
  | .json .null => false
  | .json (.bool b) => b
  | .json (.num (.fin q)) => decide (q ≠ 0)
  | .json (.num .nan) => false
  | .json (.num _) => true
  | .json (.str s) => decide (s ≠ [])
  | .json (.arr _) => true
  | .json (.obj _) => true
  | .host _ => true

/-- The expression `v || null`. -/
def orNull (v : JSValue) : JSValue := if truthy v then v else .null

/-! ## Conversions between strings and numbers -/

/-- The characters `Number(...)` strips from both ends of a string: white space and
line terminators, by code unit. -/
def isStrWhiteSpace (v : Nat) : Bool :=
  v = 9 || v = 10 || v = 11 || v = 12 || v = 13 || v = 32 || v = 0xA0 || v = 0x1680 ||
    (0x2000 ≤ v && v ≤ 0x200A) || v = 0x2028 || v = 0x2029 || v = 0x202F || v = 0x205F ||
    v = 0x3000 || v = 0xFEFF

/-- Strip white space from both ends. -/
def trimWhite (cs : List Nat) : List Nat :=
  ((cs.dropWhile isStrWhiteSpace).reverse.dropWhile isStrWhiteSpace).reverse

/-- A decimal digit `0`-`9`, by code unit. -/
def isDigit (v : Nat) : Bool := 48 ≤ v && v ≤ 57

/-- Value of one digit character, up to base sixteen. -/
def digitValue (v : Nat) : Option Nat :=
  if 48 ≤ v ∧ v ≤ 57 then some (v - 48)
  else if 97 ≤ v ∧ v ≤ 102 then some (v - 87)
  else if 65 ≤ v ∧ v ≤ 70 then some (v - 55)
  else none

/-- Value of a non-empty run of digits of the base; `none` for the empty run or a run with
a character that is no digit of the base. -/
def digitsValue (base : Nat) (cs : List Nat) : Option Nat :=
  if cs = [] then none
  else cs.foldl
    (fun acc c =>
      match acc, digitValue c with
      | some a, some d => if d < base then some (a * base + d) else none
      | _, _ => none)
    (some 0)

/-- The optional exponent part that ends a decimal literal: `e` or `E` (101, 69), an
optional sign `+` or `-` (43, 45), digits. -/
def exponentPart : List Nat → Option Int
  | [] => some 0
  | c :: rest =>
    if c = 101 ∨ c = 69 then
      match rest with
      | 43 :: ds => (digitsValue 10 ds).map Int.ofNat
      | 45 :: ds => (digitsValue 10 ds).map (fun n => - Int.ofNat n)
      | ds => (digitsValue 10 ds).map Int.ofNat
    else none

/-- The rational `n * 10 ^ e`. -/
def scale10 (n : Nat) (e : Int) : ℚ :=
  if 0 ≤ e then ((n * 10 ^ e.toNat : Nat) : ℚ) else mkRat n (10 ^ (-e).toNat)

/-- An unsigned decimal literal: `Infinity`, or digits with an optional fraction after a
point (46) and an optional exponent, at least one digit around the point. -/
def unsignedDecimal (cs : List Nat) : Option JSNum :=
  if cs = (js "Infinity").map (fun u => u.val) then some .posInf
  else
    let ip := cs.takeWhile isDigit
    match cs.dropWhile isDigit with
    | 46 :: rest =>
      let fp := rest.takeWhile isDigit
      if ip = [] ∧ fp = [] then none
      else
        match digitsValue 10 (ip ++ fp), exponentPart (rest.dropWhile isDigit) with
        | some n, some e => some (.fin (scale10 n (e - fp.length)))
        | _, _ => none
    | rest =>
      match digitsValue 10 ip, exponentPart rest with
      | some n, some e => some (.fin (scale10 n e))
      | _, _ => none

/-- StringToNumber: what `Number(s)` yields for a string. The empty or blank string is `0`,
a string that is no numeric literal is `NaN`. The prefixes are `0x`, `0o`, `0b` in either
case (48 then 120, 88, 111, 79, 98, 66) and the signs `+`, `-` (43, 45). -/
def stringToNumber (s : JSString) : JSNum :=
  match trimWhite (s.map fun u => u.val) with
  | [] => .fin 0
  | 48 :: 120 :: ds => ((digitsValue 16 ds).map fun n => JSNum.fin n).getD .nan
  | 48 :: 88 :: ds => ((digitsValue 16 ds).map fun n => JSNum.fin n).getD .nan
  | 48 :: 111 :: ds => ((digitsValue 8 ds).map fun n => JSNum.fin n).getD .nan
  | 48 :: 79 :: ds => ((digitsValue 8 ds).map fun n => JSNum.fin n).getD .nan
  | 48 :: 98 :: ds => ((digitsValue 2 ds).map fun n => JSNum.fin n).getD .nan
  | 48 :: 66 :: ds => ((digitsValue 2 ds).map fun n => JSNum.fin n).getD .nan
  | 43 :: ds => (unsignedDecimal ds).getD .nan
  | 45 :: ds => ((unsignedDecimal ds).map JSNum.neg).getD .nan
  | ds => (unsignedDecimal ds).getD .nan

/-- The decimal exponent `n` of the positive rational `a / b`:
`10 ^ (n - 1) ≤ a / b < 10 ^ n`. -/
def decimalExponent (a b : Nat) : Int :=
  if b ≤ a then ((Nat.toDigits 10 (a / b)).length : Int)
  else
    let d := (Nat.toDigits 10 (b / a)).length
    if a * 10 ^ (d - 1) = b then 2 - (d : Int) else 1 - (d : Int)

/-- The first seventeen significant decimal digits of `a / b`, trailing zeros removed. -/
def significantDigits (a b : Nat) (n : Int) : List Char :=
  let s := if n ≤ 17 then a * 10 ^ (17 - n).toNat / b else a / (b * 10 ^ (n - 17).toNat)
  ((Nat.toDigits 10 s).reverse.dropWhile (fun c => c = '0')).reverse

/-- Lay out the digits `ds` of a positive number with decimal exponent `n` the way
`Number.prototype.toString` does: plain digits up to `1e21`, a fraction down to `1e-6`,
exponent form beyond. -/
def formatDigits (ds : List Char) (n : Int) : String :=
  let k : Int := ds.length
  if k ≤ n ∧ n ≤ 21 then String.mk (ds ++ List.replicate (n - k).toNat '0')
  else if 0 < n ∧ n ≤ 21 then String.mk (ds.take n.toNat ++ '.' :: ds.drop n.toNat)
  else if -6 < n ∧ n ≤ 0 then String.mk ('0' :: '.' :: List.replicate (-n).toNat '0' ++ ds)
  else
    let es := (if 1 ≤ n then '+' else '-') :: Nat.toDigits 10 (n - 1).natAbs
    match ds with
    | [] => ""
    | [d] => String.mk (d :: 'e' :: es)
    | d :: rest => String.mk (d :: '.' :: rest ++ 'e' :: es)

/-- Number::toString in base ten. A finite value is written from its first seventeen
significant digits, which is its exact decimal expansion whenever that is no longer. -/
def numberToString : JSNum → String
  | .nan => "NaN"
  | .posInf => "Infinity"
  | .negInf => "-Infinity"
  | .fin q =>
    if q = 0 then "0"
    else
      let a := q.num.natAbs
      let n := decimalExponent a q.den
      (if q < 0 then "-" else "") ++ formatDigits (significantDigits a q.den n) n

/-- Whether an object has an own member of that name. -/
def hasOwn (fields : List (JSString × Json)) (k : JSString) : Bool := (fields.lookup k).isSome

mutual
/-- ToString of a JSON value, as it runs for a property key and inside `Number(...)`. An
array is its elements joined by commas, `null` elements left empty. A plain object is
`[object Object]` through the inherited `toString`; an own member named `toString` hides
that method and, being no function, leaves the conversion without a primitive: a
TypeError, whatever the member `valueOf` is. -/
def Json.toStr : Json → Except Thrown JSString
  | .null => .ok (js "null")
  | .bool b => .ok (if b then js "true" else js "false")
  | .num n => .ok (js (numberToString n))
  | .str s => .ok s
  | .arr items =>
    match Json.itemStrings items with
    | .ok parts => .ok ((js ",").intercalate parts)
    | .error e => .error e
  | .obj fields =>
    if hasOwn fields (js "toString") then .error .typeError else .ok (js "[object Object]")
/-- The strings `Array.prototype.join` puts between the commas, left to right. -/
def Json.itemStrings : List Json → Except Thrown (List JSString)
  | [] => .ok []
  | .null :: rest =>
    match Json.itemStrings rest with
    | .ok parts => .ok ([] :: parts)
    | .error e => .error e
  | v :: rest =>
    match Json.toStr v with
    | .error e => .error e
    | .ok part =>
      match Json.itemStrings rest with
      | .ok parts => .ok (part :: parts)
      | .error e => .error e
end

/-- What `Function.prototype.toString` returns for a built-in function in V8. -/
def nativeText (name : String) : String := "function " ++ name ++ "() \x7b [native code] \x7d"

/-- The name of the constructor of a prototype. -/
def Proto.ctorName : Proto → String
  | .object => "Object"
  | .array => "Array"
  | .string => "String"
  | .number => "Number"
  | .boolean => "Boolean"

/-- ToString of a built-in object: the source text of a function; for a prototype what its
own `toString` returns (`Array.prototype` is an empty array, `String.prototype`,
`Number.prototype` and `Boolean.prototype` wrap `""`, `0` and `false`). -/
def Host.toStr : Host → String
  | .method _ name => nativeText name
  | .ctor p => nativeText p.ctorName
  | .prototype .object => "[object Object]"
  | .prototype .array => ""
  | .prototype .string => ""
  | .prototype .number => "0"
  | .prototype .boolean => "false"

/-- ToString of a value. -/
def toStr : JSValue → Except Thrown JSString
  | .undefined => .ok (js "undefined")
  | .json j => j.toStr
  | .host h => .ok (js h.toStr)

/-- ToPropertyKey: the string form of the value used as a key. -/
def toPropertyKey (v : JSValue) : Except Thrown JSString := toStr v

/-- ToNumber: the function `Number(v)`. An array or object is first made a primitive, which
for these values is their string form, TypeError included; the string is then read as a
number. No text of a built-in function is a number; the prototypes that wrap a primitive
hand it over through their `valueOf`. -/
def toNumber : JSValue → Except Thrown JSNum
  | .undefined => .ok .nan
  | .json .null => .ok (.fin 0)
  | .json (.bool b) => .ok (if b then .fin 1 else .fin 0)
  | .json (.num n) => .ok n
  | .json (.str s) => .ok (stringToNumber s)
  | .json (.arr items) =>
    match (Json.arr items).toStr with
    | .ok s => .ok (stringToNumber s)
    | .error e => .error e
  | .json (.obj fields) =>
    match (Json.obj fields).toStr with
    | .ok s => .ok (stringToNumber s)
    | .error e => .error e
  | .host (.method _ _) => .ok .nan
  | .host (.ctor _) => .ok .nan
  | .host (.prototype .object) => .ok .nan
  | .host (.prototype _) => .ok (.fin 0)

/-! ## Property reads

The built-in members are those of V8 in Node 20 and later (ECMAScript 2023 with its
Annex B and the well-formed string methods). -/

/-- The methods of `Object.prototype`, next to `constructor` and `__proto__`. -/
def objectMethods : List String :=
  ["__defineGetter__", "__defineSetter__", "hasOwnProperty", "__lookupGetter__",
    "__lookupSetter__", "isPrototypeOf", "propertyIsEnumerable", "toString", "valueOf",
    "toLocaleString"]

/-- The methods of `Array.prototype`. -/
def arrayMethods : List String :=
  ["at", "concat", "copyWithin", "fill", "find", "findIndex", "findLast", "findLastIndex",
    "lastIndexOf", "pop", "push", "reverse", "shift", "unshift", "slice", "sort", "splice",
    "includes", "indexOf", "join", "keys", "entries", "values", "forEach", "filter", "flat",
    "flatMap", "map", "every", "some", "reduce", "reduceRight", "toLocaleString", "toString",
    "toReversed", "toSorted", "toSpliced", "with"]

/-- The methods of `String.prototype`. -/
def stringMethods : List String :=
  ["anchor", "at", "big", "blink", "bold", "charAt", "charCodeAt", "codePointAt", "concat",
    "endsWith", "fontcolor", "fontsize", "fixed", "includes", "indexOf", "isWellFormed",
    "italics", "lastIndexOf", "link", "localeCompare", "match", "matchAll", "normalize",
    "padEnd", "padStart", "repeat", "replace", "replaceAll", "search", "slice", "small",
    "split", "strike", "sub", "substr", "substring", "sup", "startsWith", "toString",
    "toWellFormed", "trim", "trimStart", "trimLeft", "trimEnd", "trimRight",
    "toLocaleLowerCase", "toLocaleUpperCase", "toLowerCase", "toUpperCase", "valueOf"]

/-- The methods of `Number.prototype`. -/
def numberMethods : List String :=
  ["toExponential", "toFixed", "toPrecision", "toString", "valueOf", "toLocaleString"]

/-- The methods of `Boolean.prototype`. -/
def booleanMethods : List String := ["toString", "valueOf"]

/-- The methods a prototype defines itself. -/
def Proto.methods : Proto → List String
  | .object => objectMethods
  | .array => arrayMethods
  | .string => stringMethods
  | .number => numberMethods
  | .boolean => booleanMethods

/-- The `name` of the function a method key holds: the key, except that `trimLeft` and
`trimRight` hold the functions `trimStart` and `trimEnd`. -/
def methodName (p : Proto) (key : String) : String :=
  if p = .string ∧ key = "trimLeft" then "trimStart"
  else if p = .string ∧ key = "trimRight" then "trimEnd"
  else key

/-- What the prototype chain supplies under the key `k` to a value whose prototype is `p`:
the constructor, the prototype itself for `__proto__`, a method of `p`, a method of
`Object.prototype`, or nothing. -/
def inherited (p : Proto) (k : JSString) : JSValue :=
  if k = js "constructor" then .host (.ctor p)
  else if k = js "__proto__" then .host (.prototype p)
  else
    match p.methods.find? (fun n => decide (js n = k)) with
    | some n => .host (.method p (methodName p n))
    | none =>
      match objectMethods.find? (fun n => decide (js n = k)) with
      | some n => .host (.method .object n)
      | none => .undefined

/-- The integer a key denotes when it is its canonical decimal form: `0`, or digits that
do not start with `0` (48). -/
def decimalIndex (k : JSString) : Option Nat :=
  match k.map (fun u => u.val) with
  | [] => none
  | [48] => some 0
  | 48 :: _ => none
  | cs => digitsValue 10 cs

/-- The own member of a JSON value under the key `k`, if it has one. A read on `null`
throws a TypeError. An object has the members listed (a name listed twice reads as its
first listing), an array its `length` and its elements by index, a string its `length` in
code units and its code units by index, a number or boolean none. -/
def ownProp (v : Json) (k : JSString) : Except Thrown (Option Json) :=
  match v with
  | .null => .error .typeError
  | .obj fields => .ok (fields.lookup k)
  | .arr items =>
    if k = js "length" then .ok (some (.num (.fin items.length)))
    else .ok ((decimalIndex k).bind fun i => items.get? i)
  | .str s =>
    if k = js "length" then .ok (some (.num (.fin s.length)))
    else .ok (((decimalIndex k).bind fun i => s.get? i).map fun u => .str [u])
  | .num _ => .ok none
  | .bool _ => .ok none

/-- The prototype of a JSON value (no read on `null` gets as far as its prototype). -/
def protoOf : Json → Proto
  | .arr _ => .array
  | .str _ => .string
  | .num _ => .number
  | .bool _ => .boolean
  | _ => .object

/-- The property read `v[k]` / `v.k` on a JSON value: the own member, else what the
prototype chain supplies, else `undefined`. -/
def getProp (v : Json) (k : JSString) : Except Thrown JSValue :=
  match ownProp v k with
  | .error e => .error e
  | .ok (some x) => .ok (.json x)
  | .ok none => .ok (inherited (protoOf v) k)

/-- The code points of a string as strings: a surrogate pair stays together, any other
code unit stands alone. -/
def codePoints : JSString → List JSString
  | [] => []
  | [u] => [[u]]
  | hi :: lo :: rest =>
    if 0xD800 ≤ hi.val ∧ hi.val ≤ 0xDBFF ∧ 0xDC00 ≤ lo.val ∧ lo.val ≤ 0xDFFF then
      [hi, lo] :: codePoints rest
    else [hi] :: codePoints (lo :: rest)

/-- The values a `for (const c of v)` loop visits: the elements of an array, the code
points of a string; any other payload is not iterable and the loop throws a TypeError. -/
def iterate : Json → Except Thrown (List Json)
  | .arr items => .ok items
  | .str s => .ok ((codePoints s).map fun p => .str p)
  | _ => .error .typeError

/-! ## Dates -/

/-- Decimal digits of `n`, padded with zeros on the left to at least `width` characters. -/
def padNat (width n : Nat) : String :=
  let ds := Nat.toDigits 10 n
  String.mk (List.replicate (width - ds.length) '0' ++ ds)

/-- The method `Date.prototype.toISOString`, for a date given as milliseconds since the
epoch (a clock before 1970 is not represented): `YYYY-MM-DDTHH:mm:ss.sssZ` in UTC, the
year written `+YYYYYY` past 9999. -/
def toISOString (ms : Nat) : String :=
  let days := ms / 86400000
  let rest := ms % 86400000
  let z := days + 719468
  let era := z / 146097
  let doe := z % 146097
  let yoe := (doe - doe / 1460 + doe / 36524 - doe / 146096) / 365
  let doy := doe - (365 * yoe + yoe / 4 - yoe / 100)
  let mp := (5 * doy + 2) / 153
  let d := doy - (153 * mp + 2) / 5 + 1
  let m := if mp < 10 then mp + 3 else mp - 9
  let y := if m ≤ 2 then yoe + era * 400 + 1 else yoe + era * 400
  (if y ≤ 9999 then padNat 4 y else "+" ++ padNat 6 y) ++ "-" ++ padNat 2 m ++ "-" ++
    padNat 2 d ++ "T" ++ padNat 2 (rest / 3600000) ++ ":" ++ padNat 2 (rest / 60000 % 60) ++
    ":" ++ padNat 2 (rest / 1000 % 60) ++ "." ++ padNat 3 (rest % 1000) ++ "Z"

/-! ## The external source gateway (`src/utils/fetchers.js`) -/

/-- How `axios.get(url, timeout)` settles: it rejects on a transport error, a timeout or a
status outside 2xx, and otherwise resolves with the parsed body as `res.data`. -/
inductive AxiosResult
  | rejected
  | resolved (data : Json)

/-- The error object the fetchers throw: `new Error(message)` with a `source` member. -/
structure SourceError where
  message : String
  source : String
  deriving DecidableEq

/-- The function `fetchAllCountries`: the body of the response, whatever its shape; a
rejected request becomes an error with source `countries`. -/
def fetchAllCountries (res : AxiosResult) : Except SourceError Json :=
  match res with
  | .resolved data => .ok data
  | .rejected => .error ⟨"Could not fetch data from Countries API", "countries"⟩

/-- The `try` block of `fetchRates`: throws when the request rejects, when the body is
falsy or when its `rates` member is falsy; otherwise yields `res.data.rates`. An error
thrown by `axios` or by the engine is written with an empty source; `catch` ignores what
was thrown. No prototype has a member named `rates`, so the read yields a JSON value or
`undefined`, never a built-in object: the last case is ruled out by proof. -/
def fetchRatesTry (res : AxiosResult) : Except SourceError Json :=
  match res with
  | .rejected => .error ⟨"request failed", ""⟩
  | .resolved data =>
    if !truthy (.json data) then .error ⟨"Rates payload malformed", "rates"⟩
    else
      match h : getProp data (js "rates") with
      | .error _ => .error ⟨"TypeError", ""⟩
      | .ok .undefined => .error ⟨"Rates payload malformed", "rates"⟩
      | .ok (.json rates) =>
        if !truthy (.json rates) then .error ⟨"Rates payload malformed", "rates"⟩ else .ok rates
      | .ok (.host x) =>
        absurd h (by
          have hi : ∀ p, inherited p (js "rates") = .undefined := by intro p; cases p <;> decide
          unfold getProp
          rw [hi]
          split <;> simp)

/-- The function `fetchRates`: whatever its `try` block throws is replaced in `catch` by
one error with source `rates`. -/
def fetchRates (res : AxiosResult) : Except SourceError Json :=
  match fetchRatesTry res with
  | .ok rates => .ok rates
  | .error _ => .error ⟨"Could not fetch data from Exchange Rates API", "rates"⟩

/-- The call `Promise.all([a, b])` awaited: both results, or the rejection that settled
first (`secondFirst` tells which of two rejections did). -/
def promiseAll {ε α β : Type} (secondFirst : Bool) (a : Except ε α) (b : Except ε β) :
    Except ε (α × β) :=
  match a, b with
  | .ok x, .ok y => .ok (x, y)
  | .error e, .ok _ => .error e
  | .ok _, .error e => .error e
  | .error e₁, .error e₂ => .error (if secondFirst then e₂ else e₁)

/-! ## The cache store -/

/-- One row of the `countries` table: the nine values the upsert statement binds. -/
structure CountryRecord where
  name : JSValue
  capital : JSValue
  region : JSValue
  population : JSValue
  currency_code : JSValue
  exchange_rate : JSValue
  estimated_gdp : JSValue
  flag_url : JSValue
  last_refreshed_at : Nat
  deriving DecidableEq

/-- Modelled from the spec: the cache store behind `pool` (`src/db.js` and the table
definitions are not among the sources). Section 3 of the specification: one row per
country name, and a keyed metadata value holding the time of the last refresh. -/
structure Store where
  countries : List CountryRecord
  metadata : List (String × String)
  deriving DecidableEq

/-- Modelled from the spec: the statement `INSERT INTO countries ... ON DUPLICATE KEY
UPDATE ...` on the rows of the table, which the sources send to a store they do not
contain. The name is the unique key: a row of that name has every field overwritten,
otherwise the record is added as a new row. -/
def upsertRow (rows : List CountryRecord) (r : CountryRecord) : List CountryRecord :=
  if r.name ∈ rows.map (fun row => row.name) then
    rows.map (fun row => if row.name = r.name then r else row)
  else rows ++ [r]

/-- Modelled from the spec: the country upsert as the store runs it. Section 3 makes the
name required, so a record whose name is `null` is refused. -/
def upsertCountry (r : CountryRecord) (s : Store) : Except Thrown Store :=
  if r.name = .null then .error .storeError
  else .ok { s with countries := upsertRow s.countries r }

/-- Modelled from the spec: the statement `INSERT INTO metadata ... ON DUPLICATE KEY
UPDATE value = VALUES(value)` on the rows of the table, an upsert by key. -/
def upsertKey (rows : List (String × String)) (key value : String) : List (String × String) :=
  if key ∈ rows.map (fun kv => kv.1) then
    rows.map (fun kv => if kv.1 = key then (key, value) else kv)
  else rows ++ [(key, value)]

/-- Modelled from the spec: the metadata upsert as the store runs it. -/
def upsertMetadata (key value : String) (s : Store) : Except Thrown Store :=
  .ok { s with metadata := upsertKey s.metadata key value }

/-- The operations of `handleRefresh` that can fail at run time. -/
inductive Op
  | beginTransaction
  | upsertCountry (i : Nat)
  | upsertMetadata
  | commit
  | countQuery
  | topQuery
  | writeImage
  deriving DecidableEq

/-- What the handler does to the store and its connection, in order. -/
inductive Event
  | getConnection
  | attempt (op : Op)
  | rollback
  | release
  deriving DecidableEq

/-- The argument of `generateSummaryImage`. -/
structure Summary where
  totalCount : Nat
  lastRefreshedAt : String
  top5 : List (JSValue × JSValue)
  deriving DecidableEq

/-- Everything outside the handler that it can change. `store` is the committed data, as
any reader sees it; `pending` is the working copy of the transaction open on the
connection of the handler; `image` is what the summary file was last rendered from. -/
structure World where
  store : Store
  pending : Option Store
  image : Option Summary
  log : List Event
  deriving DecidableEq

/-- The surroundings of one call of `handleRefresh`: how the two requests settle, the
clock, the successive values of `Math.random()`, and which operations fail. -/
structure Env where
  countriesResponse : AxiosResult
  ratesResponse : AxiosResult
  ratesSettlesFirst : Bool
  now : Nat
  random : Nat → JSNum
  fails : Op → Bool

/-- Append an event to the log. -/
def World.record (w : World) (e : Event) : World := { w with log := w.log ++ [e] }

/-- Modelled from the spec: `pool.getConnection()`. -/
def getConnection (w : World) : World := w.record .getConnection

/-- Modelled from the spec: `conn.beginTransaction()`; the working copy starts from the
committed data. -/
def beginTransaction (env : Env) (w : World) : World × Except Thrown Unit :=
  let w := w.record (.attempt .beginTransaction)
  if env.fails .beginTransaction then (w, .error .storeError)
  else ({ w with pending := some w.store }, .ok ())

/-- Modelled from the spec: `conn.execute(sql, params)` for a statement that writes. Inside
a transaction it changes the working copy only. -/
def execute (env : Env) (op : Op) (stmt : Store → Except Thrown Store) (w : World) :
    World × Except Thrown Unit :=
  let w := w.record (.attempt op)
  if env.fails op then (w, .error .storeError)
  else
    match w.pending with
    | some p =>
      match stmt p with
      | .ok p' => ({ w with pending := some p' }, .ok ())
      | .error e => (w, .error e)
    | none =>
      match stmt w.store with
      | .ok s' => ({ w with store := s' }, .ok ())
      | .error e => (w, .error e)

/-- Modelled from the spec: `conn.commit()`; the working copy becomes the committed data. -/
def commit (env : Env) (w : World) : World × Except Thrown Unit :=
  let w := w.record (.attempt .commit)
  if env.fails .commit then (w, .error .storeError)
  else ({ w with store := w.pending.getD w.store, pending := none }, .ok ())

/-- Modelled from the spec: `conn.rollback()`; the working copy is dropped, which is no
change at all when no transaction is open. -/
def rollback (w : World) : World := { w.record .rollback with pending := none }

/-- Modelled from the spec: `conn.release()`. -/
def release (w : World) : World := w.record .release

/-- Modelled from the spec: `SELECT COUNT(*) AS cnt FROM countries` through the pool, on
the committed data. -/
def countQuery (env : Env) (w : World) : World × Except Thrown Nat :=
  let w := w.record (.attempt .countQuery)
  if env.fails .countQuery then (w, .error .storeError) else (w, .ok w.store.countries.length)

/-- The number a stored estimate sorts by. -/
def gdpOf (r : CountryRecord) : JSNum :=
  match r.estimated_gdp with
  | .num n => n
  | _ => .nan

/-- Insert a row in a list sorted by estimate, highest first. -/
def insertDesc (r : CountryRecord) : List CountryRecord → List CountryRecord
  | [] => [r]
  | x :: xs => if JSNum.ble (gdpOf r) (gdpOf x) then x :: insertDesc r xs else r :: x :: xs

/-- Modelled from the spec: `SELECT name, estimated_gdp FROM countries WHERE estimated_gdp
IS NOT NULL ORDER BY estimated_gdp DESC LIMIT 5` through the pool. -/
def topQuery (env : Env) (w : World) : World × Except Thrown (List (JSValue × JSValue)) :=
  let w := w.record (.attempt .topQuery)
  if env.fails .topQuery then (w, .error .storeError)
  else
    let rows := w.store.countries.filter (fun r => r.estimated_gdp ≠ .null)
    (w, .ok (((rows.foldr insertDesc []).take 5).map fun r => (r.name, r.estimated_gdp)))

/-- The function `generateSummaryImage` of `src/utils/image.js`: it creates the directory,
draws the picture and writes the file, any of which may throw. The picture is
represented by the argument it is drawn from. -/
def generateSummaryImage (env : Env) (arg : Summary) (w : World) : World × Except Thrown Unit :=
  let w := w.record (.attempt .writeImage)
  if env.fails .writeImage then (w, .error .fileError)
  else ({ w with image := some arg }, .ok ())

/-! ## The refresh handler (`src/controllers/countries.js`) -/

/-- The function `randomMultiplier`, given the value `u` that `Math.random()` returns. -/
def randomMultiplier (u : JSNum) : JSNum := u * (2000 - 1000) + 1000

/-- Line 63 of `handleRefresh`: `null`, written `none`, for a population that is
`undefined` or `null`; otherwise `Number(c.population)`, which can throw. -/
def populationOf (raw : JSValue) : Except Thrown (Option JSNum) :=
  if raw = .undefined ∨ raw = .null then .ok none
  else
    match toNumber raw with
    | .ok n => .ok (some n)
    | .error e => .error e

/-- Lines 67-72 of `handleRefresh`: the code of the first currency when `c.currencies` is
a non-empty array whose first element and its `code` are truthy, else `null`. -/
def firstCurrencyCode (currencies : JSValue) : Except Thrown JSValue :=
  match currencies with
  | .json (.arr (first :: _)) =>
    if truthy (.json first) then do
      let code ← getProp first (js "code")
      if truthy code then pure (orNull code) else pure .null
    else pure .null
  | _ => pure .null

/-- Lines 76-96 of `handleRefresh`: `exchange_rate`, `estimated_gdp` and the number of
`Math.random()` values used so far, from the population of line 63 and the currency code.
The key conversion in `rates[currency_code]` and `Number(rate)` can throw. -/
def rateAndEstimate (rates : Json) (random : Nat → JSNum) (draws : Nat)
    (population : Option JSNum) (currency_code : JSValue) :
    Except Thrown (JSValue × JSValue × Nat) :=
  if currency_code = .null then .ok (.null, .num 0, draws)
  else do
    let rate ← getProp rates (← toPropertyKey currency_code)
    if rate = .undefined ∨ rate = .null then pure (.null, .null, draws)
    else do
      let exchange_rate ← toNumber rate
      let popVal : JSNum := population.getD 0
      let multiplier := randomMultiplier (random draws)
      let estimated_gdp := (popVal * multiplier) / exchange_rate
      pure (.num exchange_rate, .num estimated_gdp, draws + 1)

/-- Lines 59-100 of `handleRefresh`, the body of the loop up to the upsert: the record
bound to the statement for the raw entry `c`, and the number of `Math.random()` values
used so far. -/
def countryParams (rates : Json) (now : Nat) (random : Nat → JSNum) (draws : Nat)
    (c : Json) : Except Thrown (CountryRecord × Nat) := do
  let name := orNull (← getProp c (js "name"))
  let capital := orNull (← getProp c (js "capital"))
  let region := orNull (← getProp c (js "region"))
  let population ← populationOf (← getProp c (js "population"))
  let flag_url := orNull (← getProp c (js "flag"))
  let currency_code ← firstCurrencyCode (← getProp c (js "currencies"))
  let estimate ← rateAndEstimate rates random draws population currency_code
  let populationFinal : JSNum := population.getD 0
  pure (⟨name, capital, region, .num populationFinal, currency_code, estimate.1, estimate.2.1,
    flag_url, now⟩, estimate.2.2)

/-- Lines 58-108 of `handleRefresh`: the loop over the entries, each one reconciled and
upserted; `i` numbers the entries and `draws` counts the random values used. The first
throw ends the loop. -/
def upsertLoop (env : Env) (rates : Json) :
    List Json → Nat → Nat → World → World × Except Thrown Unit
  | [], _, _, w => (w, .ok ())
  | c :: rest, i, draws, w =>
    match countryParams rates env.now env.random draws c with
    | .error e => (w, .error e)
    | .ok (record, draws') =>
      match execute env (.upsertCountry i) (upsertCountry record) w with
      | (w', .error e) => (w', .error e)
      | (w', .ok _) => upsertLoop env rates rest (i + 1) draws' w'

/-- The body of a response. -/
inductive Body
  | refreshed (message : String) (total_countries : Nat) (last_refreshed_at : String)
  | failure (error : String) (details : Option String)
  deriving DecidableEq

/-- What `res.status(n).json(body)` sends. -/
structure Response where
  status : Nat
  body : Body
  deriving DecidableEq

/-- Lines 118-136 of `handleRefresh`: after the commit, the count, the five highest
estimates and the summary image, then the 200 response. -/
def afterCommit (env : Env) (w : World) : World × Except Thrown Response :=
  match countQuery env w with
  | (w, .error e) => (w, .error e)
  | (w, .ok totalCount) =>
    match topQuery env w with
    | (w, .error e) => (w, .error e)
    | (w, .ok topRows) =>
      match generateSummaryImage env ⟨totalCount, toISOString env.now, topRows⟩ w with
      | (w, .error e) => (w, .error e)
      | (w, .ok _) =>
        (w, .ok ⟨200, .refreshed "Refresh completed" totalCount (toISOString env.now)⟩)

/-- Lines 37-116 of `handleRefresh`: the transaction, from `beginTransaction` to `commit`. -/
def transaction (env : Env) (countriesPayload rates : Json) (w : World) :
    World × Except Thrown Unit :=
  match beginTransaction env w with
  | (w, .error e) => (w, .error e)
  | (w, .ok _) =>
    match iterate countriesPayload with
    | .error e => (w, .error e)
    | .ok items =>
      match upsertLoop env rates items 0 0 w with
      | (w, .error e) => (w, .error e)
      | (w, .ok _) =>
        match execute env .upsertMetadata
            (upsertMetadata "last_refreshed_at" (toISOString env.now)) w with
        | (w, .error e) => (w, .error e)
        | (w, .ok _) => commit env w

/-- Lines 37-136 of `handleRefresh`: the `try` block, the transaction and what follows the
commit. It yields the response it returns, or what it throws. -/
def tryBlock (env : Env) (countriesPayload rates : Json) (w : World) :
    World × Except Thrown Response :=
  match transaction env countriesPayload rates w with
  | (w, .error e) => (w, .error e)
  | (w, .ok _) => afterCommit env w

/-- Line 27 of `handleRefresh`: the name put in the details of a 503. -/
def sourceName (err : SourceError) : String :=
  if err.source = "rates" then "Exchange Rates API"
  else if err.source = "countries" then "Countries API"
  else "External API"

/-- The function `handleRefresh`: the response sent and the world it leaves. The calls
`pool.getConnection()`, `conn.rollback()` and `conn.release()` are taken to succeed. -/
def handleRefresh (env : Env) (w : World) : Response × World :=
  match promiseAll env.ratesSettlesFirst (fetchAllCountries env.countriesResponse)
      (fetchRates env.ratesResponse) with
  | .error err =>
    (⟨503, .failure "External data source unavailable"
      (some ("Could not fetch data from " ++ sourceName err))⟩, w)
  | .ok (countriesPayload, rates) =>
    match tryBlock env countriesPayload rates (getConnection w) with
    | (w, .ok response) => (response, release w)
    | (w, .error _) => (⟨500, .failure "Internal server error" none⟩, release (rollback w))

/-! ## Notions used to state the properties -/

/-- The operations that run between `beginTransaction` and `commit`, both included. -/
def Op.inTransaction : Op → Bool
  | .beginTransaction => true
  | .upsertCountry _ => true
  | .upsertMetadata => true
  | .commit => true
  | _ => false

/-- The records the loop of `handleRefresh` upserts for the entries `items`, in order,
when every entry is reconciled and every upsert goes through; `none` when the loop is
cut short by a throw. -/
def loopRecords (env : Env) (rates : Json) :
    List Json → Nat → Nat → Option (List CountryRecord)
  | [], _, _ => some []
  | c :: rest, i, draws =>
    match countryParams rates env.now env.random draws c with
    | .error _ => none
    | .ok (record, draws') =>
      if env.fails (.upsertCountry i) = true ∨ record.name = .null then none
      else (loopRecords env rates rest (i + 1) draws').map (fun recs => record :: recs)

/-- The records a refresh commits: `some recs` when the transaction of `handleRefresh`
runs to its commit, having upserted `recs` in order; `none` when a step of it throws. -/
def committedRecords (env : Env) (countriesPayload rates : Json) :
    Option (List CountryRecord) :=
  if env.fails .beginTransaction = true then none
  else
    match iterate countriesPayload with
    | .error _ => none
    | .ok items =>
      match loopRecords env rates items 0 0 with
      | none => none
      | some recs =>
        if env.fails .upsertMetadata = true ∨ env.fails .commit = true then none else some recs

/-- A record with its `last_refreshed_at` set to `t`. -/
def CountryRecord.withTime (t : Nat) (r : CountryRecord) : CountryRecord :=
  { r with last_refreshed_at := t }

/-- Replay one upsert on a single row: the row is replaced when the names agree. -/
def replaceBy (row r : CountryRecord) : CountryRecord := if row.name = r.name then r else row

/-! ## Sample inputs -/

/-- The entry `name: Wakanda, population: 1000000, currencies: [code: WKD]`. -/
def wakanda : Json :=
  .obj [(js "name", .str (js "Wakanda")), (js "population", .num 1000000),
    (js "currencies", .arr [.obj [(js "code", .str (js "WKD"))]])]

/-- The entry `name: Atlantis, population: 500, currencies: []`. -/
def atlantis : Json :=
  .obj [(js "name", .str (js "Atlantis")), (js "population", .num 500),
    (js "currencies", .arr [])]

/-- The rate table `WKD: 10`. -/
def wakandaRates : Json := .obj [(js "WKD", .num 10)]

/-- A `Math.random()` that always returns one half, so that every multiplier is 1500. -/
def halfRandom : Nat → JSNum := fun _ => .fin (1 / 2)

/-- The entry `name: Genosha, currencies: [code: WKD]`, without a population. -/
def genosha : Json :=
  .obj [(js "name", .str (js "Genosha")),
    (js "currencies", .arr [.obj [(js "code", .str (js "WKD"))]])]

/-- An entry whose first currency has the empty string as its code. -/
def blankCodeEntry : Json :=
  .obj [(js "name", .str (js "Nowhere")), (js "population", .num 1000),
    (js "currencies", .arr [.obj [(js "code", .str (js ""))]])]

/-- A rate table that lists the empty string as a code. -/
def blankCodeRates : Json := .obj [(js "", .num 10)]

/-- An entry whose population is the string `abc`. -/
def wordPopulationEntry : Json :=
  .obj [(js "name", .str (js "Utopia")), (js "population", .str (js "abc")),
    (js "currencies", .arr [.obj [(js "code", .str (js "WKD"))]])]

/-- The entry `name: Latveria, population: (toString: 0), currencies: []`: its population
is an object with an own member `toString` that is no function. -/
def objectPopulationEntry : Json :=
  .obj [(js "name", .str (js "Latveria")), (js "population", .obj [(js "toString", .num 0)]),
    (js "currencies", .arr [])]

/-- The entry `name: P, population: 1000, currencies: [code: constructor]`: its currency
code is the name of a member every object inherits. -/
def inheritedCodeEntry : Json :=
  .obj [(js "name", .str (js "P")), (js "population", .num 1000),
    (js "currencies", .arr [.obj [(js "code", .str (js "constructor"))]])]

/-- The entry `name: Q, population: 1000, currencies: [code: XYZ]`: its currency code is
in no rate table used here. -/
def unlistedCodeEntry : Json :=
  .obj [(js "name", .str (js "Q")), (js "population", .num 1000),
    (js "currencies", .arr [.obj [(js "code", .str (js "XYZ"))]])]

/-- A world with an empty store, no open transaction, no image and an empty log. -/
def emptyWorld : World := ⟨⟨[], []⟩, none, none, []⟩

/-- A world whose store holds one row, for Wakanda, from an earlier refresh. -/
def oldWorld : World :=
  ⟨⟨[⟨.str (js "Wakanda"), .str (js "Birnin Zana"), .str (js "Africa"), .num 900000,
      .str (js "WKD"), .num 8, .num 1, .null, 1000⟩],
      [("last_refreshed_at", "1970-01-01T00:00:01.000Z")]⟩,
    none, none, []⟩

/-- Both sources answer, Wakanda and Atlantis against `WKD: 10`; only the operations
`failing` says fail. -/
def sampleEnv (failing : Op → Bool) : Env :=
  ⟨.resolved (.arr [wakanda, atlantis]), .resolved (.obj [(js "rates", wakandaRates)]), false,
    1761566400000, halfRandom, failing⟩

/-- The countries source answers 200 with an object, not with an array of entries. -/
def malformedCountriesEnv : Env :=
  ⟨.resolved (.obj [(js "message", .str (js "Not Found"))]),
    .resolved (.obj [(js "rates", wakandaRates)]), false, 1761566400000, halfRandom,
    fun _ => false⟩

/-- Only the upsert of the second entry fails. -/
def secondUpsertFails : Op → Bool := fun op => decide (op = .upsertCountry 1)

/-- Only writing the summary image fails. -/
def imageFails : Op → Bool := fun op => decide (op = .writeImage)

/-- No operation fails. -/
def nothingFails : Op → Bool := fun _ => false

/-! ## Facts about property reads -/

theorem getProp_null (k : JSString) : getProp .null k = .error .typeError := rfl

theorem ownProp_ok_of_ne_null {c : Json} (h : c ≠ .null) (k : JSString) :
    ∃ o, ownProp c k = .ok o := by
  cases c with
  | null => exact absurd rfl h
  | bool b => exact ⟨_, rfl⟩
  | num n => exact ⟨_, rfl⟩
  | obj fields => exact ⟨_, rfl⟩
  | arr items =>
    by_cases hk : k = js "length"
    · exact ⟨_, by simp only [ownProp, hk, if_true]; rfl⟩
    · exact ⟨_, by simp only [ownProp, hk, if_false]; rfl⟩
  | str s =>
    by_cases hk : k = js "length"
    · exact ⟨_, by simp only [ownProp, hk, if_true]; rfl⟩
    · exact ⟨_, by simp only [ownProp, hk, if_false]; rfl⟩

theorem getProp_ok_of_ne_null {c : Json} (h : c ≠ .null) (k : JSString) :
    ∃ v, getProp c k = .ok v := by
  obtain ⟨o, ho⟩ := ownProp_ok_of_ne_null h k
  unfold getProp
  rw [ho]
  cases o <;> exact ⟨_, rfl⟩

theorem getProp_ok_of_ok {c : Json} {k : JSString} {v : JSValue} (h : getProp c k = .ok v)
    (k' : JSString) : ∃ v', getProp c k' = .ok v' := by
  apply getProp_ok_of_ne_null
  intro hc
  subst hc
  cases h

theorem getProp_ok_of_truthy {c : Json} (h : truthy (.json c) = true) (k : JSString) :
    ∃ v, getProp c k = .ok v := by
  apply getProp_ok_of_ne_null
  intro hc
  subst hc
  simp [truthy] at h

theorem inherited_code (p : Proto) : inherited p (js "code") = .undefined := by
  cases p <;> decide

theorem truthy_of_code {first : Json} {code : JSValue} (h : getProp first (js "code") = .ok code)
    (ht : truthy code = true) : truthy (.json first) = true := by
  cases first with
  | null => cases h
  | bool b =>
    simp only [getProp, ownProp, protoOf, inherited_code, Except.ok.injEq] at h
    subst h; simp [truthy] at ht
  | num n =>
    simp only [getProp, ownProp, protoOf, inherited_code, Except.ok.injEq] at h
    subst h; simp [truthy] at ht
  | str s =>
    cases s with
    | nil =>
      have : getProp (.str []) (js "code") = .ok .undefined := by decide
      rw [this] at h
      cases h
      simp [truthy] at ht
    | cons u t => simp [truthy]
  | obj fields => rfl
  | arr items => rfl

theorem orNull_of_truthy {v : JSValue} (h : truthy v = true) : orNull v = v := by
  simp [orNull, h]

/-- What lines 67-72 take as the first currency code of a non-empty list: the `code` of
its first element when that is truthy, `null` otherwise. -/
theorem firstCurrencyCode_of_code {first : Json} {code : JSValue} (rest : List Json)
    (h : getProp first (js "code") = .ok code) :
    firstCurrencyCode (.json (.arr (first :: rest))) =
      .ok (if truthy code = true then code else .null) := by
  by_cases ht : truthy code = true
  · simp [firstCurrencyCode, truthy_of_code h ht, h, ht, orNull_of_truthy ht, bind, Except.bind,
      pure, Except.pure]
  · by_cases hf : truthy (.json first) = true
    · simp [firstCurrencyCode, hf, h, ht, bind, Except.bind, pure, Except.pure]
    · simp [firstCurrencyCode, hf, ht, pure, Except.pure]

theorem firstCurrencyCode_total (cur : JSValue) : ∃ code, firstCurrencyCode cur = .ok code := by
  unfold firstCurrencyCode
  split
  · rename_i first rest
    by_cases hf : truthy (.json first) = true
    · obtain ⟨code, hcode⟩ := getProp_ok_of_truthy hf (js "code")
      by_cases ht : truthy code = true <;>
        simp [hf, hcode, ht, bind, Except.bind, pure, Except.pure]
    · simp [hf, pure, Except.pure]
  · exact ⟨_, rfl⟩

theorem firstCurrencyCode_of_empty {cur : JSValue}
    (h : cur = .undefined ∨ cur = .null ∨ cur = .json (.arr [])) :
    firstCurrencyCode cur = .ok .null := by
  rcases h with h | h | h <;> subst h <;> rfl

/-- The reads and conversions at work: a string has its `length` and its code units, an
object inherits the members of `Object.prototype`, and an object with an own member
`toString` that is no function, alone or inside an array, has no string and no number. -/
theorem reads_and_conversions :
    getProp (.str (js "abc")) (js "length") = .ok (.num 3) ∧
      getProp (.str (js "abc")) (js "1") = .ok (.str (js "b")) ∧
      getProp (.arr [.null, .null]) (js "length") = .ok (.num 2) ∧
      getProp (.obj []) (js "constructor") = .ok (.host (.ctor .object)) ∧
      getProp (.obj []) (js "toString") = .ok (.host (.method .object "toString")) ∧
      getProp (.obj [(js "toString", .num 0)]) (js "toString") = .ok (.num 0) ∧
      getProp (.obj []) (js "WKD") = .ok .undefined ∧
      toNumber (.json (.obj [(js "toString", .num 0)])) = .error .typeError ∧
      toNumber (.json (.arr [.obj [(js "toString", .num 0)]])) = .error .typeError ∧
      toPropertyKey (.json (.obj [(js "toString", .num 0)])) = .error .typeError ∧
      toPropertyKey (.json (.obj [])) = .ok (js "[object Object]") ∧
      toNumber (.json (.obj [])) = .ok .nan ∧
      toNumber (.json (.arr [.str (js "5")])) = .ok 5 ∧
      toNumber (.host (.ctor .object)) = .ok .nan := by
  decide!

/-! ## The loop body -/

theorem populationOf_missing {raw : JSValue} (h : raw = .undefined ∨ raw = .null) :
    populationOf raw = .ok none := by
  unfold populationOf
  rw [if_pos h]

theorem populationOf_num (p : JSNum) : populationOf (.num p) = .ok (some p) := by
  unfold populationOf
  rw [if_neg (by simp [JSValue.num, JSValue.null])]
  rfl

theorem countryParams_null (rates : Json) (now : Nat) (random : Nat → JSNum) (draws : Nat) :
    countryParams rates now random draws .null = .error .typeError := rfl

theorem countryParams_eq (rates : Json) (now : Nat) (random : Nat → JSNum) (draws : Nat)
    {c : Json} {vn vc vr raw vf cur : JSValue}
    (hn : getProp c (js "name") = .ok vn) (hc : getProp c (js "capital") = .ok vc)
    (hr : getProp c (js "region") = .ok vr) (hp : getProp c (js "population") = .ok raw)
    (hf : getProp c (js "flag") = .ok vf) (hcur : getProp c (js "currencies") = .ok cur) :
    countryParams rates now random draws c =
      match populationOf raw with
      | .error e => .error e
      | .ok population =>
        match firstCurrencyCode cur with
        | .error e => .error e
        | .ok code =>
          match rateAndEstimate rates random draws population code with
          | .error e => .error e
          | .ok estimate =>
            .ok (⟨orNull vn, orNull vc, orNull vr, .num (population.getD 0), code, estimate.1,
              estimate.2.1, orNull vf, now⟩, estimate.2.2) := by
  unfold countryParams
  simp only [hn, hc, hr, hp, hf, hcur, bind, Except.bind, pure, Except.pure]
  cases populationOf raw with
  | error e => rfl
  | ok population =>
    simp only []
    cases firstCurrencyCode cur with
    | error e => rfl
    | ok code =>
      simp only []
      cases rateAndEstimate rates random draws population code <;> rfl

theorem rateAndEstimate_null (rates : Json) (random : Nat → JSNum) (draws : Nat)
    (population : Option JSNum) :
    rateAndEstimate rates random draws population .null = .ok (.null, .num 0, draws) := rfl

theorem rateAndEstimate_eq (rates : Json) (random : Nat → JSNum) (draws : Nat)
    (population : Option JSNum) {code rate : JSValue} {key : JSString} (hnn : code ≠ .null)
    (hkey : toPropertyKey code = .ok key) (hrate : getProp rates key = .ok rate) :
    rateAndEstimate rates random draws population code =
      if rate = .undefined ∨ rate = .null then .ok (.null, .null, draws)
      else
        match toNumber rate with
        | .error e => .error e
        | .ok x =>
          .ok (.num x, .num ((population.getD 0 * randomMultiplier (random draws)) / x),
            draws + 1) := by
  unfold rateAndEstimate
  simp only [hnn, if_false, hkey, hrate, bind, Except.bind, pure, Except.pure]
  by_cases hu : rate = .undefined ∨ rate = .null
  · simp only [hu, if_true]
  · simp only [hu, if_false]
    cases toNumber rate <;> rfl

theorem rateAndEstimate_formula {rates : Json} {random : Nat → JSNum} {draws : Nat}
    {population : Option JSNum} {code : JSValue} {estimate : JSValue × JSValue × Nat}
    (h : rateAndEstimate rates random draws population code = .ok estimate) (x : JSNum)
    (hx : estimate.1 = .num x) :
    estimate.2.1 = .num ((population.getD 0 * randomMultiplier (random draws)) / x) := by
  by_cases hnn : code = .null
  · subst hnn
    rw [rateAndEstimate_null] at h
    cases h
    cases hx
  · cases hkey : toPropertyKey code with
    | error e =>
      simp [rateAndEstimate, hnn, hkey, bind, Except.bind] at h
    | ok key =>
      cases hrate : getProp rates key with
      | error e =>
        simp [rateAndEstimate, hnn, hkey, hrate, bind, Except.bind] at h
      | ok rate =>
        rw [rateAndEstimate_eq rates random draws population hnn hkey hrate] at h
        by_cases hu : rate = .undefined ∨ rate = .null
        · rw [if_pos hu] at h
          cases h
          cases hx
        · rw [if_neg hu] at h
          cases hnum : toNumber rate with
          | error e => simp [hnum] at h
          | ok y =>
            simp only [hnum, Except.ok.injEq] at h
            subst h
            simp only [JSValue.num, JSValue.json.injEq, Json.num.injEq] at hx
            subst hx
            rfl

/-- C5: an entry whose currency list is missing (`undefined` or `null`) or empty is written
with `currency_code = null`, `exchange_rate = null` and `estimated_gdp = 0`, whatever the
rate table and whatever its population, as long as line 63 yields one: `Number(...)` of
the population does not throw. (When it throws no record is written at all.) -/
theorem no_currency_rule (rates : Json) (now : Nat) (random : Nat → JSNum) (draws : Nat)
    (c : Json) (cur raw : JSValue) (population : Option JSNum)
    (hcur : getProp c (js "currencies") = .ok cur)
    (hempty : cur = .undefined ∨ cur = .null ∨ cur = .json (.arr []))
    (hp : getProp c (js "population") = .ok raw)
    (hpop : populationOf raw = .ok population) :
    ∃ record, countryParams rates now random draws c = .ok (record, draws) ∧
      record.currency_code = .null ∧ record.exchange_rate = .null ∧
      record.estimated_gdp = .num 0 := by
  obtain ⟨vn, hn⟩ := getProp_ok_of_ok hcur (js "name")
  obtain ⟨vc, hc⟩ := getProp_ok_of_ok hcur (js "capital")
  obtain ⟨vr, hr⟩ := getProp_ok_of_ok hcur (js "region")
  obtain ⟨vf, hf⟩ := getProp_ok_of_ok hcur (js "flag")
  rw [countryParams_eq rates now random draws hn hc hr hp hf hcur, hpop,
    firstCurrencyCode_of_empty hempty]
  simp only [rateAndEstimate_null]
  exact ⟨_, rfl, rfl, rfl, rfl⟩

theorem no_currency_rule_witness :
    getProp atlantis (js "currencies") = .ok (.json (.arr [])) ∧
      getProp atlantis (js "population") = .ok (.num 500) ∧
      populationOf (.num 500) = .ok (some 500) ∧
      ∃ record, countryParams wakandaRates 0 halfRandom 0 atlantis = .ok (record, 0) ∧
        record.currency_code = .null ∧ record.exchange_rate = .null ∧
        record.estimated_gdp = .num 0 :=
  ⟨by decide, by decide, by decide,
    no_currency_rule wakandaRates 0 halfRandom 0 atlantis (.json (.arr [])) (.num 500)
      (some 500) (by decide) (Or.inr (Or.inr rfl)) (by decide) (by decide)⟩

/-- Line 63 can throw: for a population that is an object with an own member `toString`,
`Number(...)` finds no primitive and throws a TypeError; no record is bound for the entry,
the transaction is rolled back and the handler answers 500. -/
theorem population_coercion_can_throw :
    toNumber (.json (.obj [(js "toString", .num 0)])) = .error .typeError ∧
      countryParams wakandaRates 0 halfRandom 0 objectPopulationEntry = .error .typeError ∧
      (handleRefresh
        ⟨.resolved (.arr [wakanda, objectPopulationEntry]),
          .resolved (.obj [(js "rates", wakandaRates)]), false, 5, halfRandom, nothingFails⟩
        oldWorld).1 = ⟨500, .failure "Internal server error" none⟩ ∧
      (handleRefresh
        ⟨.resolved (.arr [wakanda, objectPopulationEntry]),
          .resolved (.obj [(js "rates", wakandaRates)]), false, 5, halfRandom, nothingFails⟩
        oldWorld).2.store = oldWorld.store := by
  decide!

/-- C4: an entry whose first currency code, as lines 67-72 take it, is mapped by the rate
table to the number `r`, and whose population is the number `p`, is written with that
code, `exchange_rate = r` and `estimated_gdp = p * m / r`, where `m` is the multiplier
drawn for the entry. The rule holds for every number `r`, positive or not. -/
theorem matched_rate_rule (rates : Json) (now : Nat) (random : Nat → JSNum) (draws : Nat)
    (c : Json) (cur code : JSValue) (key : JSString) (p r : JSNum)
    (hcur : getProp c (js "currencies") = .ok cur)
    (hcode : firstCurrencyCode cur = .ok code) (hnn : code ≠ .null)
    (hkey : toPropertyKey code = .ok key)
    (hrate : getProp rates key = .ok (.num r))
    (hp : getProp c (js "population") = .ok (.num p)) :
    ∃ record, countryParams rates now random draws c = .ok (record, draws + 1) ∧
      record.currency_code = code ∧ record.exchange_rate = .num r ∧
      record.estimated_gdp = .num ((p * randomMultiplier (random draws)) / r) := by
  obtain ⟨vn, hn⟩ := getProp_ok_of_ok hcur (js "name")
  obtain ⟨vc, hc⟩ := getProp_ok_of_ok hcur (js "capital")
  obtain ⟨vr, hr⟩ := getProp_ok_of_ok hcur (js "region")
  obtain ⟨vf, hf⟩ := getProp_ok_of_ok hcur (js "flag")
  have hu : ¬ (JSValue.num r = .undefined ∨ JSValue.num r = .null) := by
    simp [JSValue.num, JSValue.null]
  rw [countryParams_eq rates now random draws hn hc hr hp hf hcur, populationOf_num, hcode]
  simp only [rateAndEstimate_eq rates random draws (some p) hnn hkey hrate, if_neg hu]
  exact ⟨_, rfl, rfl, rfl, rfl⟩

theorem matched_rate_rule_witness :
    getProp wakanda (js "currencies") =
        .ok (.json (.arr [.obj [(js "code", .str (js "WKD"))]])) ∧
      firstCurrencyCode (.json (.arr [.obj [(js "code", .str (js "WKD"))]])) =
        .ok (.str (js "WKD")) ∧
      JSValue.str (js "WKD") ≠ .null ∧
      toPropertyKey (.str (js "WKD")) = .ok (js "WKD") ∧
      getProp wakandaRates (js "WKD") = .ok (.num 10) ∧
      getProp wakanda (js "population") = .ok (.num 1000000) ∧
      randomMultiplier (halfRandom 0) = 1500 ∧
      (1000000 * randomMultiplier (halfRandom 0) / 10 : JSNum) = 150000000 ∧
      ∃ record, countryParams wakandaRates 0 halfRandom 0 wakanda = .ok (record, 0 + 1) ∧
        record.currency_code = .str (js "WKD") ∧ record.exchange_rate = .num 10 ∧
        record.estimated_gdp = .num ((1000000 * randomMultiplier (halfRandom 0)) / 10) :=
  ⟨by decide, by decide, by decide, by decide, by decide, by decide, by decide!, by decide!,
    matched_rate_rule wakandaRates 0 halfRandom 0 wakanda
      (.json (.arr [.obj [(js "code", .str (js "WKD"))]])) (.str (js "WKD")) (js "WKD")
      1000000 10 (by decide) (by decide) (by decide) (by decide) (by decide) (by decide)⟩

/-- An empty code is no code: the entry falls under the no-currency rule even when the rate
table lists the empty string. -/
theorem blank_code_is_no_currency :
    getProp blankCodeEntry (js "currencies") =
        .ok (.json (.arr [.obj [(js "code", .str (js ""))]])) ∧
      getProp blankCodeRates (js "") = .ok (.num 10) ∧
      countryParams blankCodeRates 0 halfRandom 0 blankCodeEntry =
        .ok (⟨.str (js "Nowhere"), .null, .null, .num 1000, .null, .null, .num 0, .null, 0⟩,
          0) := by
  decide!

/-- C6, at the failing input: the first currency code is `constructor`, which the rate
table `WKD: 10` does not list. The read `rates[currency_code]` still finds the function
every object inherits under that name, so the handler takes the code as matched, draws a
multiplier and binds `exchange_rate = NaN` and `estimated_gdp = NaN` instead of `null` and
`null`. A code that names no inherited member, such as `XYZ`, gets `null` and `null`. -/
theorem inherited_member_taken_as_rate :
    getProp inheritedCodeEntry (js "currencies") =
        .ok (.json (.arr [.obj [(js "code", .str (js "constructor"))]])) ∧
      ownProp wakandaRates (js "constructor") = .ok none ∧
      getProp wakandaRates (js "constructor") = .ok (.host (.ctor .object)) ∧
      countryParams wakandaRates 0 halfRandom 0 inheritedCodeEntry =
        .ok (⟨.str (js "P"), .null, .null, .num 1000, .str (js "constructor"), .num .nan,
          .num .nan, .null, 0⟩, 1) ∧
      countryParams wakandaRates 0 halfRandom 0 unlistedCodeEntry =
        .ok (⟨.str (js "Q"), .null, .null, .num 1000, .str (js "XYZ"), .null, .null, .null,
          0⟩, 0) := by
  decide!

/-- What holds of the unmatched-rate rule: for a rate table that is an object and a first
currency code that is a string, the record keeps the code with `exchange_rate = null` and
`estimated_gdp = null` when the table maps the code to `null`, or does not list it and the
code names no member inherited from `Object.prototype`. -/
theorem unmatched_rate_rule (table : List (JSString × Json)) (now : Nat)
    (random : Nat → JSNum) (draws : Nat) (c : Json) (cur raw : JSValue) (s : JSString)
    (population : Option JSNum)
    (hcur : getProp c (js "currencies") = .ok cur)
    (hcode : firstCurrencyCode cur = .ok (.str s))
    (habsent : table.lookup s = some .null ∨
      (table.lookup s = none ∧ inherited .object s = .undefined))
    (hp : getProp c (js "population") = .ok raw)
    (hpop : populationOf raw = .ok population) :
    ∃ record, countryParams (.obj table) now random draws c = .ok (record, draws) ∧
      record.currency_code = .str s ∧ record.exchange_rate = .null ∧
      record.estimated_gdp = .null := by
  obtain ⟨vn, hn⟩ := getProp_ok_of_ok hcur (js "name")
  obtain ⟨vc, hc⟩ := getProp_ok_of_ok hcur (js "capital")
  obtain ⟨vr, hr⟩ := getProp_ok_of_ok hcur (js "region")
  obtain ⟨vf, hf⟩ := getProp_ok_of_ok hcur (js "flag")
  have hnn : JSValue.str s ≠ .null := by simp [JSValue.str, JSValue.null]
  have hkey : toPropertyKey (.str s) = .ok s := rfl
  rw [countryParams_eq (.obj table) now random draws hn hc hr hp hf hcur, hpop, hcode]
  rcases habsent with h | ⟨h, hi⟩
  · have hrate : getProp (.obj table) s = .ok .null := by
      simp [getProp, ownProp, h]
    simp only [rateAndEstimate_eq (.obj table) random draws population hnn hkey hrate]
    exact ⟨_, rfl, rfl, rfl, rfl⟩
  · have hrate : getProp (.obj table) s = .ok .undefined := by
      simp [getProp, ownProp, h, protoOf, hi]
    simp only [rateAndEstimate_eq (.obj table) random draws population hnn hkey hrate]
    exact ⟨_, rfl, rfl, rfl, rfl⟩

theorem unmatched_rate_rule_witness :
    getProp unlistedCodeEntry (js "currencies") =
        .ok (.json (.arr [.obj [(js "code", .str (js "XYZ"))]])) ∧
      firstCurrencyCode (.json (.arr [.obj [(js "code", .str (js "XYZ"))]])) =
        .ok (.str (js "XYZ")) ∧
      ([(js "WKD", Json.num 10)].lookup (js "XYZ") = none ∧
        inherited .object (js "XYZ") = .undefined) ∧
      getProp unlistedCodeEntry (js "population") = .ok (.num 1000) ∧
      populationOf (.num 1000) = .ok (some 1000) ∧
      ∃ record, countryParams (.obj [(js "WKD", .num 10)]) 0 halfRandom 0 unlistedCodeEntry =
          .ok (record, 0) ∧
        record.currency_code = .str (js "XYZ") ∧ record.exchange_rate = .null ∧
        record.estimated_gdp = .null :=
  ⟨by decide, by decide, by decide, by decide, by decide,
    unmatched_rate_rule [(js "WKD", .num 10)] 0 halfRandom 0 unlistedCodeEntry
      (.json (.arr [.obj [(js "code", .str (js "XYZ"))]])) (.num 1000) (js "XYZ") (some 1000)
      (by decide) (by decide) (Or.inr (by decide)) (by decide) (by decide)⟩

theorem countryParams_inv {rates : Json} {now : Nat} {random : Nat → JSNum} {draws : Nat}
    {c : Json} {record : CountryRecord} {d : Nat}
    (h : countryParams rates now random draws c = .ok (record, d)) :
    ∃ raw population code estimate,
      getProp c (js "population") = .ok raw ∧ populationOf raw = .ok population ∧
      rateAndEstimate rates random draws population code = .ok estimate ∧
      record.population = .num (population.getD 0) ∧ record.currency_code = code ∧
      record.exchange_rate = estimate.1 ∧ record.estimated_gdp = estimate.2.1 ∧
      record.last_refreshed_at = now ∧ d = estimate.2.2 := by
  have hc : c ≠ .null := by
    intro hc
    subst hc
    rw [countryParams_null] at h
    cases h
  obtain ⟨vn, hn⟩ := getProp_ok_of_ne_null hc (js "name")
  obtain ⟨vc, hcap⟩ := getProp_ok_of_ne_null hc (js "capital")
  obtain ⟨vr, hr⟩ := getProp_ok_of_ne_null hc (js "region")
  obtain ⟨raw, hp⟩ := getProp_ok_of_ne_null hc (js "population")
  obtain ⟨vf, hf⟩ := getProp_ok_of_ne_null hc (js "flag")
  obtain ⟨cur, hcur⟩ := getProp_ok_of_ne_null hc (js "currencies")
  rw [countryParams_eq rates now random draws hn hcap hr hp hf hcur] at h
  cases hpop : populationOf raw with
  | error e => simp [hpop] at h
  | ok population =>
    simp only [hpop] at h
    cases hcode : firstCurrencyCode cur with
    | error e => simp [hcode] at h
    | ok code =>
      simp only [hcode] at h
      cases hest : rateAndEstimate rates random draws population code with
      | error e => simp [hest] at h
      | ok estimate =>
        simp only [hest, Except.ok.injEq, Prod.mk.injEq] at h
        obtain ⟨h1, h2⟩ := h
        subst h1
        exact ⟨raw, population, code, estimate, hp, hpop, hest, rfl, rfl, rfl, rfl, rfl,
          h2.symm⟩

/-- C9, amended: for an entry whose population is missing (`undefined` or `null`), line 63
performs no coercion and yields `null`; the entry is reconciled whenever its currency steps
return; and in the record the population is 0 and, whenever an exchange rate was found,
the estimate is computed with 0 for the population. -/
theorem population_default (rates : Json) (now : Nat) (random : Nat → JSNum) (draws : Nat)
    (c : Json) (raw : JSValue)
    (hp : getProp c (js "population") = .ok raw)
    (hmissing : raw = .undefined ∨ raw = .null) :
    populationOf raw = .ok none ∧
      (∀ cur code estimate, getProp c (js "currencies") = .ok cur →
        firstCurrencyCode cur = .ok code →
        rateAndEstimate rates random draws none code = .ok estimate →
        ∃ record, countryParams rates now random draws c = .ok (record, estimate.2.2)) ∧
      ∀ record d, countryParams rates now random draws c = .ok (record, d) →
        record.population = .num 0 ∧
        ∀ x, record.exchange_rate = .num x →
          record.estimated_gdp = .num ((0 * randomMultiplier (random draws)) / x) := by
  refine ⟨populationOf_missing hmissing, ?_, ?_⟩
  · intro cur code estimate hcur hcode hest
    obtain ⟨vn, hn⟩ := getProp_ok_of_ok hp (js "name")
    obtain ⟨vc, hc⟩ := getProp_ok_of_ok hp (js "capital")
    obtain ⟨vr, hr⟩ := getProp_ok_of_ok hp (js "region")
    obtain ⟨vf, hf⟩ := getProp_ok_of_ok hp (js "flag")
    rw [countryParams_eq rates now random draws hn hc hr hp hf hcur,
      populationOf_missing hmissing, hcode]
    simp only [hest]
    exact ⟨_, rfl⟩
  · intro record d hres
    obtain ⟨raw', population, code, estimate, hp', hpop, hest, h1, _, h3, h4, _, _⟩ :=
      countryParams_inv hres
    rw [hp] at hp'
    cases hp'
    rw [populationOf_missing hmissing] at hpop
    cases hpop
    refine ⟨h1, ?_⟩
    intro x hx
    rw [h4]
    exact rateAndEstimate_formula hest x (h3 ▸ hx)

theorem population_default_witness :
    getProp genosha (js "population") = .ok .undefined ∧
      populationOf .undefined = .ok none ∧
      (∃ record, countryParams wakandaRates 0 halfRandom 0 genosha = .ok (record, 1)) ∧
      countryParams wakandaRates 0 halfRandom 0 genosha =
        .ok (⟨.str (js "Genosha"), .null, .null, .num 0, .str (js "WKD"), .num 10, .num 0,
          .null, 0⟩, 1) ∧
      (0 * randomMultiplier (halfRandom 0) / 10 : JSNum) = 0 ∧
      (⟨.str (js "Genosha"), .null, .null, .num 0, .str (js "WKD"), .num 10, .num 0, .null,
        0⟩ : CountryRecord).population = .num 0 ∧
      (⟨.str (js "Genosha"), .null, .null, .num 0, .str (js "WKD"), .num 10, .num 0, .null,
        0⟩ : CountryRecord).estimated_gdp =
          .num ((0 * randomMultiplier (halfRandom 0)) / 10) :=
  have h := population_default wakandaRates 0 halfRandom 0 genosha .undefined (by decide)
    (Or.inl rfl)
  have h3 := h.2.2
    ⟨.str (js "Genosha"), .null, .null, .num 0, .str (js "WKD"), .num 10, .num 0, .null, 0⟩ 1
    (by decide!)
  ⟨by decide, h.1,
    h.2.1 (.json (.arr [.obj [(js "code", .str (js "WKD"))]])) (.str (js "WKD"))
      (.num 10, .num 0, 1) (by decide) (by decide) (by decide!),
    by decide!, by decide!, h3.1, h3.2 10 rfl⟩

/-- C9 as stated fails on a population that is present and not numeric: for the population
`"abc"` the record carries `NaN`, not 0, as its population, and `NaN` enters the formula,
so that `estimated_gdp` is `NaN` as well. -/
theorem population_default_fails_on_word :
    getProp wordPopulationEntry (js "population") = .ok (.str (js "abc")) ∧
      countryParams wakandaRates 0 halfRandom 0 wordPopulationEntry =
        .ok (⟨.str (js "Utopia"), .null, .null, .num .nan, .str (js "WKD"), .num 10, .num .nan,
          .null, 0⟩, 1) ∧
      JSValue.num .nan ≠ .num 0 ∧
      JSValue.num .nan ≠ .num ((0 * randomMultiplier (halfRandom 0)) / 10) := by
  decide!

/-! ## The gateway -/

theorem fetchRates_error_source {res : AxiosResult} {e : SourceError}
    (h : fetchRates res = .error e) : e.source = "rates" := by
  unfold fetchRates at h
  split at h
  · cases h
  · cases h; rfl

theorem fetchAllCountries_error_source {res : AxiosResult} {e : SourceError}
    (h : fetchAllCountries res = .error e) : e.source = "countries" := by
  unfold fetchAllCountries at h
  split at h
  · cases h
  · cases h; rfl

theorem handleRefresh_of_failed_fetch (env : Env) (w : World)
    (h : (∃ e, fetchAllCountries env.countriesResponse = .error e) ∨
      (∃ e, fetchRates env.ratesResponse = .error e)) :
    (handleRefresh env w).1.status = 503 ∧ (handleRefresh env w).2 = w := by
  unfold handleRefresh
  rcases h with ⟨e, he⟩ | ⟨e, he⟩
  · rw [he]
    cases fetchRates env.ratesResponse <;> simp [promiseAll]
  · rw [he]
    cases fetchAllCountries env.countriesResponse <;> simp [promiseAll]

/-- The 503 names the source whose error `Promise.all` rejected with: `Countries API` for an
error of `fetchAllCountries`, `Exchange Rates API` for one of `fetchRates`. -/
theorem unavailable_names_source (env : Env) (w : World)
    (h : (∃ e, fetchAllCountries env.countriesResponse = .error e) ∨
      (∃ e, fetchRates env.ratesResponse = .error e)) :
    ∃ name,
      (handleRefresh env w).1 = ⟨503, .failure "External data source unavailable"
        (some ("Could not fetch data from " ++ name))⟩ ∧
      ((name = "Countries API" ∧ ∃ e, fetchAllCountries env.countriesResponse = .error e) ∨
        (name = "Exchange Rates API" ∧ ∃ e, fetchRates env.ratesResponse = .error e)) := by
  unfold handleRefresh
  cases hc : fetchAllCountries env.countriesResponse with
  | error e₁ =>
    have s₁ : sourceName e₁ = "Countries API" := by
      simp [sourceName, fetchAllCountries_error_source hc]
    cases hr : fetchRates env.ratesResponse with
    | error e₂ =>
      have s₂ : sourceName e₂ = "Exchange Rates API" := by
        simp [sourceName, fetchRates_error_source hr]
      cases hfirst : env.ratesSettlesFirst with
      | true =>
        refine ⟨"Exchange Rates API", ?_, Or.inr ⟨rfl, e₂, rfl⟩⟩
        simp [promiseAll, s₂]
      | false =>
        refine ⟨"Countries API", ?_, Or.inl ⟨rfl, e₁, rfl⟩⟩
        simp [promiseAll, s₁]
    | ok rates =>
      refine ⟨"Countries API", ?_, Or.inl ⟨rfl, e₁, rfl⟩⟩
      simp [promiseAll, s₁]
  | ok countriesPayload =>
    cases hr : fetchRates env.ratesResponse with
    | error e₂ =>
      have s₂ : sourceName e₂ = "Exchange Rates API" := by
        simp [sourceName, fetchRates_error_source hr]
      refine ⟨"Exchange Rates API", ?_, Or.inr ⟨rfl, e₂, rfl⟩⟩
      simp [promiseAll, s₂]
    | ok rates =>
      rw [hc, hr] at h
      rcases h with ⟨e, he⟩ | ⟨e, he⟩ <;> cases he

/-- C2: when either fetch fails, also when the other one succeeded, the handler answers
503 and leaves the world as it was: nothing is written, and the log of store operations
gains no entry, so no connection is acquired and no transaction is opened. -/
theorem fail_fast_on_source_failure (env : Env) (w : World)
    (h : (∃ e, fetchAllCountries env.countriesResponse = .error e) ∨
      (∃ e, fetchRates env.ratesResponse = .error e)) :
    (handleRefresh env w).1.status = 503 ∧ (handleRefresh env w).2 = w := by
  unfold handleRefresh
  rcases h with ⟨e, he⟩ | ⟨e, he⟩
  · rw [he]
    cases fetchRates env.ratesResponse <;> simp [promiseAll]
  · rw [he]
    cases fetchAllCountries env.countriesResponse <;> simp [promiseAll]

theorem fail_fast_on_source_failure_witness :
    ((∃ e, fetchAllCountries (.resolved (.arr [wakanda])) = .error e) ∨
        (∃ e, fetchRates .rejected = .error e)) ∧
      (handleRefresh ⟨.resolved (.arr [wakanda]), .rejected, false, 5, halfRandom,
        fun _ => false⟩ oldWorld).1.status = 503 ∧
      (handleRefresh ⟨.resolved (.arr [wakanda]), .rejected, false, 5, halfRandom,
        fun _ => false⟩ oldWorld).2 = oldWorld :=
  ⟨Or.inr ⟨_, rfl⟩,
    fail_fast_on_source_failure
      ⟨.resolved (.arr [wakanda]), .rejected, false, 5, halfRandom, fun _ => false⟩ oldWorld
      (Or.inr ⟨_, rfl⟩)⟩

/-- C8, at the failing input: the countries source answers with a body that is an object
and not a list of entries. `fetchAllCountries` returns that body instead of failing with
source `countries`, and `handleRefresh` answers 500 `Internal server error`, not the 503
that names the source; `fetchRates` does refuse a body without a rate table. -/
theorem malformed_countries_body_gives_500 :
    fetchAllCountries malformedCountriesEnv.countriesResponse =
        .ok (.obj [(js "message", .str (js "Not Found"))]) ∧
      (handleRefresh malformedCountriesEnv emptyWorld).1 =
        ⟨500, .failure "Internal server error" none⟩ ∧
      fetchRates (.resolved (.obj [(js "message", .str (js "Not Found"))])) =
        .error ⟨"Could not fetch data from Exchange Rates API", "rates"⟩ := by
  decide!

/-! ## The transaction -/

theorem execute_pending (env : Env) (op : Op) (stmt : Store → Except Thrown Store) {w : World}
    {p : Store} (hp : w.pending = some p) :
    execute env op stmt w =
      if env.fails op = true then (w.record (.attempt op), .error .storeError)
      else
        match stmt p with
        | .ok p' => ({ w.record (.attempt op) with pending := some p' }, .ok ())
        | .error e => (w.record (.attempt op), .error e) := by
  unfold execute
  cases hf : env.fails op
  · simp only [World.record, hp, Bool.false_eq_true, if_false]
  · simp [World.record]

theorem upsertLoop_spec (env : Env) (rates : Json) :
    ∀ (items : List Json) (i draws : Nat) (w : World) (p : Store), w.pending = some p →
      (upsertLoop env rates items i draws w).1.store = w.store ∧
      (upsertLoop env rates items i draws w).1.image = w.image ∧
      (∀ recs, loopRecords env rates items i draws = some recs →
        (upsertLoop env rates items i draws w).2 = .ok () ∧
        (upsertLoop env rates items i draws w).1.pending =
          some { p with countries := recs.foldl upsertRow p.countries }) ∧
      (loopRecords env rates items i draws = none →
        ∃ e, (upsertLoop env rates items i draws w).2 = .error e) := by
  intro items
  induction items with
  | nil =>
    intro i draws w p hp
    refine ⟨rfl, rfl, ?_, ?_⟩
    · intro recs hrecs
      simp only [loopRecords, Option.some.injEq] at hrecs
      subst hrecs
      exact ⟨rfl, hp⟩
    · intro hnone
      simp [loopRecords] at hnone
  | cons c rest ih =>
    intro i draws w p hp
    rw [upsertLoop, loopRecords]
    cases hcp : countryParams rates env.now env.random draws c with
    | error e =>
      refine ⟨rfl, rfl, ?_, ?_⟩
      · intro recs hrecs
        simp at hrecs
      · intro _
        exact ⟨e, rfl⟩
    | ok res =>
      obtain ⟨record, draws'⟩ := res
      simp only []
      rw [execute_pending env _ _ hp]
      cases hf : env.fails (.upsertCountry i)
      case true =>
        simp only [if_true, true_or]
        refine ⟨rfl, rfl, ?_, ?_⟩
        · intro recs hrecs
          simp at hrecs
        · intro _
          exact ⟨_, rfl⟩
      case false =>
        by_cases hnull : record.name = .null
        · simp only [Bool.false_eq_true, if_false, upsertCountry, hnull, if_true, or_true]
          refine ⟨rfl, rfl, ?_, ?_⟩
          · intro recs hrecs
            simp at hrecs
          · intro _
            exact ⟨_, rfl⟩
        · simp only [Bool.false_eq_true, if_false, upsertCountry, hnull, false_or]
          have hp' : ({ w.record (.attempt (.upsertCountry i)) with
              pending := some { p with countries := upsertRow p.countries record } } :
                World).pending = some { p with countries := upsertRow p.countries record } := rfl
          obtain ⟨h1, h2, h3, h4⟩ := ih (i + 1) draws' _ _ hp'
          refine ⟨h1, h2, ?_, ?_⟩
          · intro recs hrecs
            cases hrest : loopRecords env rates rest (i + 1) draws' with
            | none => simp [hrest] at hrecs
            | some recs' =>
              simp only [hrest, Option.map_some', Option.some.injEq] at hrecs
              subst hrecs
              obtain ⟨h5, h6⟩ := h3 recs' hrest
              exact ⟨h5, by rw [h6]; rfl⟩
          · intro hnone
            cases hrest : loopRecords env rates rest (i + 1) draws' with
            | none => exact h4 hrest
            | some recs' => simp [hrest] at hnone

theorem transaction_spec (env : Env) (countriesPayload rates : Json) (w : World) :
    (transaction env countriesPayload rates w).1.image = w.image ∧
    (∀ recs, committedRecords env countriesPayload rates = some recs →
      (transaction env countriesPayload rates w).2 = .ok () ∧
      (transaction env countriesPayload rates w).1.pending = none ∧
      (transaction env countriesPayload rates w).1.store =
        { countries := recs.foldl upsertRow w.store.countries,
          metadata := upsertKey w.store.metadata "last_refreshed_at" (toISOString env.now) }) ∧
    (committedRecords env countriesPayload rates = none →
      (∃ e, (transaction env countriesPayload rates w).2 = .error e) ∧
      (transaction env countriesPayload rates w).1.store = w.store) := by
  unfold transaction committedRecords beginTransaction
  cases hb : env.fails .beginTransaction
  case true => simp [World.record]
  case false =>
    simp only [Bool.false_eq_true, if_false]
    cases hit : iterate countriesPayload with
    | error e => simp [World.record]
    | ok items =>
      simp only []
      have hp : ({ w.record (.attempt .beginTransaction) with
          pending := some (w.record (.attempt .beginTransaction)).store } : World).pending =
            some w.store := rfl
      obtain ⟨h1, h2, h3, h4⟩ := upsertLoop_spec env rates items 0 0 _ _ hp
      cases hl : loopRecords env rates items 0 0 with
      | none =>
        obtain ⟨e, he⟩ := h4 hl
        generalize hres : upsertLoop env rates items 0 0 _ = res at h1 h2 he
        obtain ⟨w', r⟩ := res
        simp only at he h1 h2
        subst he
        refine ⟨h2, ?_, ?_⟩
        · intro recs hrecs
          simp at hrecs
        · intro _
          exact ⟨⟨e, rfl⟩, h1⟩
      | some recs =>
        obtain ⟨h5, h6⟩ := h3 recs hl
        generalize hres : upsertLoop env rates items 0 0 _ = res at h1 h2 h5 h6
        obtain ⟨w', r⟩ := res
        simp only at h5 h6 h1 h2
        subst h5
        simp only []
        rw [execute_pending env _ _ h6]
        cases hm : env.fails .upsertMetadata
        case true =>
          refine ⟨h2, ?_, ?_⟩
          · intro recs' hrecs
            simp at hrecs
          · intro _
            exact ⟨⟨_, rfl⟩, h1⟩
        case false =>
          simp only [Bool.false_eq_true, if_false, upsertMetadata, commit, World.record, false_or]
          cases hc : env.fails .commit
          case true =>
            refine ⟨h2, ?_, ?_⟩
            · intro recs' hrecs
              simp at hrecs
            · intro _
              exact ⟨⟨_, rfl⟩, h1⟩
          case false =>
            refine ⟨h2, ?_, ?_⟩
            · intro recs' hrecs
              simp only [Bool.false_eq_true, if_false, Option.some.injEq] at hrecs
              subst hrecs
              exact ⟨rfl, rfl, rfl⟩
            · intro hnone
              simp at hnone

theorem afterCommit_spec (env : Env) (w : World) :
    (afterCommit env w).1.store = w.store ∧ (afterCommit env w).1.pending = w.pending ∧
    (env.fails .countQuery = true ∨ env.fails .topQuery = true ∨ env.fails .writeImage = true →
      ∃ e, (afterCommit env w).2 = .error e) ∧
    (¬ (env.fails .countQuery = true ∨ env.fails .topQuery = true ∨
        env.fails .writeImage = true) →
      (afterCommit env w).2 =
        .ok ⟨200, .refreshed "Refresh completed" w.store.countries.length
          (toISOString env.now)⟩) := by
  unfold afterCommit countQuery topQuery generateSummaryImage
  cases h1 : env.fails .countQuery
  case true => simp [World.record]
  case false =>
    cases h2 : env.fails .topQuery
    case true => simp [World.record]
    case false =>
      cases h3 : env.fails .writeImage
      case true => simp [World.record]
      case false => simp [World.record]

theorem handleRefresh_of_fetched (env : Env) (w : World) {countriesPayload rates : Json}
    (hc : fetchAllCountries env.countriesResponse = .ok countriesPayload)
    (hr : fetchRates env.ratesResponse = .ok rates) :
    handleRefresh env w =
      match tryBlock env countriesPayload rates (getConnection w) with
      | (w, .ok response) => (response, release w)
      | (w, .error _) => (⟨500, .failure "Internal server error" none⟩, release (rollback w)) := by
  unfold handleRefresh
  simp only [hc, hr, promiseAll]

theorem handleRefresh_not_committed (env : Env) (w : World) {countriesPayload rates : Json}
    (hc : fetchAllCountries env.countriesResponse = .ok countriesPayload)
    (hr : fetchRates env.ratesResponse = .ok rates)
    (hnone : committedRecords env countriesPayload rates = none) :
    (handleRefresh env w).1 = ⟨500, .failure "Internal server error" none⟩ ∧
    (handleRefresh env w).2.store = w.store ∧ (handleRefresh env w).2.pending = none ∧
    Event.rollback ∈ (handleRefresh env w).2.log := by
  rw [handleRefresh_of_fetched env w hc hr]
  obtain ⟨_, _, h3⟩ := transaction_spec env countriesPayload rates (getConnection w)
  obtain ⟨⟨e, he⟩, hs⟩ := h3 hnone
  unfold tryBlock
  generalize transaction env countriesPayload rates (getConnection w) = res at he hs
  obtain ⟨w', r⟩ := res
  simp only at he hs
  subst he
  refine ⟨rfl, ?_, rfl, ?_⟩
  · simpa [release, rollback, World.record, getConnection] using hs
  · simp [release, rollback, World.record]

theorem handleRefresh_committed (env : Env) (w : World) {countriesPayload rates : Json}
    {recs : List CountryRecord}
    (hc : fetchAllCountries env.countriesResponse = .ok countriesPayload)
    (hr : fetchRates env.ratesResponse = .ok rates)
    (hsome : committedRecords env countriesPayload rates = some recs) :
    (handleRefresh env w).2.store =
      { countries := recs.foldl upsertRow w.store.countries,
        metadata := upsertKey w.store.metadata "last_refreshed_at" (toISOString env.now) } ∧
    (handleRefresh env w).2.pending = none ∧
    (env.fails .countQuery = true ∨ env.fails .topQuery = true ∨ env.fails .writeImage = true →
      (handleRefresh env w).1 = ⟨500, .failure "Internal server error" none⟩) ∧
    (¬ (env.fails .countQuery = true ∨ env.fails .topQuery = true ∨
        env.fails .writeImage = true) →
      (handleRefresh env w).1 =
        ⟨200, .refreshed "Refresh completed" (recs.foldl upsertRow w.store.countries).length
          (toISOString env.now)⟩) := by
  rw [handleRefresh_of_fetched env w hc hr]
  obtain ⟨_, h2, _⟩ := transaction_spec env countriesPayload rates (getConnection w)
  obtain ⟨hok, hpend, hstore⟩ := h2 recs hsome
  unfold tryBlock
  generalize transaction env countriesPayload rates (getConnection w) = res at hok hpend hstore
  obtain ⟨w', r⟩ := res
  simp only at hok hpend hstore
  subst hok
  simp only []
  obtain ⟨a1, a2, a3, a4⟩ := afterCommit_spec env w'
  generalize afterCommit env w' = res at a1 a2 a3 a4
  obtain ⟨w'', r⟩ := res
  simp only at a1 a2 a3 a4
  have hst : w''.store =
      { countries := recs.foldl upsertRow w.store.countries,
        metadata := upsertKey w.store.metadata "last_refreshed_at" (toISOString env.now) } := by
    rw [a1, hstore]; rfl
  cases r with
  | error e =>
    refine ⟨?_, rfl, fun _ => rfl, ?_⟩
    · simpa [release, rollback, World.record] using hst
    · intro hno
      have := a4 hno
      simp at this
  | ok response =>
    refine ⟨?_, ?_, ?_, ?_⟩
    · simpa [release, World.record] using hst
    · simpa [release, World.record, hpend] using a2
    · intro hpost
      obtain ⟨e, he⟩ := a3 hpost
      simp at he
    · intro hno
      have := a4 hno
      simp only [Except.ok.injEq] at this
      subst this
      simp [hstore, getConnection, World.record]

theorem countryParams_withTime (rates : Json) (now now2 : Nat) (random : Nat → JSNum)
    (draws : Nat) (c : Json) :
    countryParams rates now2 random draws c =
      (countryParams rates now random draws c).map (fun x => (x.1.withTime now2, x.2)) := by
  by_cases h : c = .null
  · subst h
    rfl
  · obtain ⟨vn, hn⟩ := getProp_ok_of_ne_null h (js "name")
    obtain ⟨vc, hc⟩ := getProp_ok_of_ne_null h (js "capital")
    obtain ⟨vr, hr⟩ := getProp_ok_of_ne_null h (js "region")
    obtain ⟨raw, hp⟩ := getProp_ok_of_ne_null h (js "population")
    obtain ⟨vf, hf⟩ := getProp_ok_of_ne_null h (js "flag")
    obtain ⟨cur, hcur⟩ := getProp_ok_of_ne_null h (js "currencies")
    rw [countryParams_eq rates now random draws hn hc hr hp hf hcur,
      countryParams_eq rates now2 random draws hn hc hr hp hf hcur]
    cases populationOf raw with
    | error e => rfl
    | ok population =>
      simp only []
      cases firstCurrencyCode cur with
      | error e => rfl
      | ok code =>
        simp only []
        cases rateAndEstimate rates random draws population code <;> rfl

theorem countryParams_time {rates : Json} {now : Nat} {random : Nat → JSNum} {draws : Nat}
    {c : Json} {record : CountryRecord} {draws' : Nat}
    (h : countryParams rates now random draws c = .ok (record, draws')) :
    record.last_refreshed_at = now := by
  have h2 := countryParams_withTime rates now now random draws c
  rw [h] at h2
  simp only [Except.map, Except.ok.injEq, Prod.mk.injEq, and_true] at h2
  rw [h2]
  rfl

theorem loopRecords_facts (env : Env) (rates : Json) :
    ∀ (items : List Json) (i draws : Nat) (recs : List CountryRecord),
      loopRecords env rates items i draws = some recs →
        recs.length = items.length ∧ (∀ r ∈ recs, r.last_refreshed_at = env.now) ∧
        ∀ k, k < items.length → env.fails (.upsertCountry (i + k)) = false := by
  intro items
  induction items with
  | nil =>
    intro i draws recs h
    simp only [loopRecords, Option.some.injEq] at h
    subst h
    simp
  | cons c rest ih =>
    intro i draws recs h
    rw [loopRecords] at h
    cases hcp : countryParams rates env.now env.random draws c with
    | error e => simp [hcp] at h
    | ok res =>
      obtain ⟨record, draws'⟩ := res
      simp only [hcp] at h
      by_cases hbad : env.fails (.upsertCountry i) = true ∨ record.name = .null
      · simp [hbad] at h
      · simp only [hbad, if_false] at h
        cases hrest : loopRecords env rates rest (i + 1) draws' with
        | none => simp [hrest] at h
        | some recs' =>
          simp only [hrest, Option.map_some', Option.some.injEq] at h
          subst h
          obtain ⟨h1, h2, h3⟩ := ih (i + 1) draws' recs' hrest
          refine ⟨by simp [h1], ?_, ?_⟩
          · intro r hr
            rcases List.mem_cons.mp hr with hr | hr
            · subst hr
              exact countryParams_time hcp
            · exact h2 r hr
          · intro k hk
            cases k with
            | zero =>
              have : ¬ env.fails (.upsertCountry i) = true := fun hh => hbad (Or.inl hh)
              simpa using this
            | succ k =>
              have := h3 k (by simpa using hk)
              rw [show i + (k + 1) = i + 1 + k by omega]
              exact this

theorem committedRecords_none_of_fault (env : Env) (items : List Json) (rates : Json)
    (hfail : (∃ k, k < items.length ∧ env.fails (.upsertCountry k) = true) ∨
      env.fails .upsertMetadata = true ∨ env.fails .commit = true) :
    committedRecords env (.arr items) rates = none := by
  unfold committedRecords
  by_cases hb : env.fails .beginTransaction = true
  · simp [hb]
  · simp only [hb, if_false, iterate]
    cases hl : loopRecords env rates items 0 0 with
    | none => rfl
    | some recs =>
      simp only []
      rcases hfail with ⟨k, hk, hf⟩ | hf | hf
      · have := (loopRecords_facts env rates items 0 0 recs hl).2.2 k hk
        rw [Nat.zero_add] at this
        rw [this] at hf
        cases hf
      · simp [hf]
      · simp [hf]

theorem committedRecords_some {env : Env} {countriesPayload rates : Json}
    {recs : List CountryRecord} (h : committedRecords env countriesPayload rates = some recs) :
    ∃ items, iterate countriesPayload = .ok items ∧
      loopRecords env rates items 0 0 = some recs ∧
      env.fails .beginTransaction = false ∧ env.fails .upsertMetadata = false ∧
      env.fails .commit = false := by
  unfold committedRecords at h
  cases hb : env.fails .beginTransaction
  case true => simp [hb] at h
  case false =>
    simp only [hb, Bool.false_eq_true, if_false] at h
    cases hit : iterate countriesPayload with
    | error e => simp [hit] at h
    | ok items =>
      simp only [hit] at h
      cases hl : loopRecords env rates items 0 0 with
      | none => simp [hl] at h
      | some recs' =>
        simp only [hl] at h
        cases hm : env.fails .upsertMetadata <;> cases hcm : env.fails .commit <;>
          simp [hm, hcm] at h
        subst h
        exact ⟨items, rfl, hl, rfl, rfl, rfl⟩

theorem lookup_upsertKey (rows : List (String × String)) (key value : String) :
    (upsertKey rows key value).lookup key = some value := by
  induction rows with
  | nil => simp [upsertKey, List.lookup]
  | cons kv rest ih =>
    obtain ⟨a, b⟩ := kv
    by_cases hk : a = key
    · subst hk
      simp [upsertKey, List.lookup]
    · have hk' : ¬ key = a := fun h => hk h.symm
      have hstep : upsertKey ((a, b) :: rest) key value = (a, b) :: upsertKey rest key value := by
        unfold upsertKey
        by_cases hm : key ∈ rest.map (fun kv => kv.1)
        · simp [hm, hk]
        · simp [hm, hk, hk']
      rw [hstep, List.lookup]
      have hne : (key == a) = false := by simpa using hk'
      rw [hne]
      exact ih

/-- C1: when a country upsert (the one numbered `k`, counting from 0, among the `N` of the
payload), the metadata upsert or the commit fails, the handler rolls the transaction back
and answers 500, and the store is exactly what it was before the refresh, the rows of the
countries already upserted in the failed attempt included. -/
theorem refresh_atomic (env : Env) (w : World) (items : List Json) (rates : Json)
    (hc : fetchAllCountries env.countriesResponse = .ok (.arr items))
    (hr : fetchRates env.ratesResponse = .ok rates)
    (hfail : (∃ k, k < items.length ∧ env.fails (.upsertCountry k) = true) ∨
      env.fails .upsertMetadata = true ∨ env.fails .commit = true) :
    (handleRefresh env w).1 = ⟨500, .failure "Internal server error" none⟩ ∧
    (handleRefresh env w).2.store = w.store ∧ (handleRefresh env w).2.pending = none ∧
    Event.rollback ∈ (handleRefresh env w).2.log := by
  have hnone : committedRecords env (.arr items) rates = none :=
    committedRecords_none_of_fault env items rates hfail
  exact handleRefresh_not_committed env w hc hr hnone

/-- Whatever makes the transaction throw (a failing `beginTransaction`, a payload that
cannot be iterated, an entry that is `null`, a record the store refuses, a failing upsert
or commit), the handler answers 500 and the store is what it was. -/
theorem rollback_on_any_throw (env : Env) (w : World) (countriesPayload rates : Json)
    (e : Thrown) (hc : fetchAllCountries env.countriesResponse = .ok countriesPayload)
    (hr : fetchRates env.ratesResponse = .ok rates)
    (hthrow : (transaction env countriesPayload rates (getConnection w)).2 = .error e) :
    (handleRefresh env w).1 = ⟨500, .failure "Internal server error" none⟩ ∧
    (handleRefresh env w).2.store = w.store ∧ (handleRefresh env w).2.pending = none ∧
    Event.rollback ∈ (handleRefresh env w).2.log := by
  cases hrec : committedRecords env countriesPayload rates with
  | none => exact handleRefresh_not_committed env w hc hr hrec
  | some recs =>
    have hok := ((transaction_spec env countriesPayload rates (getConnection w)).2.1 recs hrec).1
    rw [hok] at hthrow
    cases hthrow

theorem refresh_atomic_witness :
    fetchAllCountries (sampleEnv secondUpsertFails).countriesResponse =
        .ok (.arr [wakanda, atlantis]) ∧
      fetchRates (sampleEnv secondUpsertFails).ratesResponse = .ok wakandaRates ∧
      ((∃ k, k < [wakanda, atlantis].length ∧
          (sampleEnv secondUpsertFails).fails (.upsertCountry k) = true) ∨
        (sampleEnv secondUpsertFails).fails .upsertMetadata = true ∨
        (sampleEnv secondUpsertFails).fails .commit = true) ∧
      (handleRefresh (sampleEnv secondUpsertFails) oldWorld).1 =
        ⟨500, .failure "Internal server error" none⟩ ∧
      (handleRefresh (sampleEnv secondUpsertFails) oldWorld).2.store = oldWorld.store ∧
      (handleRefresh (sampleEnv secondUpsertFails) oldWorld).2.pending = none ∧
      Event.rollback ∈ (handleRefresh (sampleEnv secondUpsertFails) oldWorld).2.log :=
  ⟨rfl, rfl, Or.inl ⟨1, by decide, rfl⟩,
    refresh_atomic (sampleEnv secondUpsertFails) oldWorld [wakanda, atlantis] wakandaRates rfl
      rfl (Or.inl ⟨1, by decide, rfl⟩)⟩

/-- C3, amended: once the transaction has committed, a failure of the count query, of the
top-five query or of `generateSummaryImage` turns the answer into 500 `Internal server
error`; the committed data stays, the store is the one the commit left. -/
theorem post_commit_failure (env : Env) (w : World) (countriesPayload rates : Json)
    (hc : fetchAllCountries env.countriesResponse = .ok countriesPayload)
    (hr : fetchRates env.ratesResponse = .ok rates)
    (hcommit : (transaction env countriesPayload rates (getConnection w)).2 = .ok ())
    (hpost : env.fails .countQuery = true ∨ env.fails .topQuery = true ∨
      env.fails .writeImage = true) :
    (handleRefresh env w).1 = ⟨500, .failure "Internal server error" none⟩ ∧
    (handleRefresh env w).2.store =
      (transaction env countriesPayload rates (getConnection w)).1.store := by
  obtain ⟨_, h2, h3⟩ := transaction_spec env countriesPayload rates (getConnection w)
  cases hrec : committedRecords env countriesPayload rates with
  | none =>
    obtain ⟨⟨e, he⟩, _⟩ := h3 hrec
    rw [hcommit] at he
    cases he
  | some recs =>
    obtain ⟨_, _, hstore⟩ := h2 recs hrec
    obtain ⟨a1, _, a3, _⟩ := handleRefresh_committed env w hc hr hrec
    exact ⟨a3 hpost, by rw [a1, hstore]; rfl⟩

theorem post_commit_failure_witness :
    fetchAllCountries (sampleEnv imageFails).countriesResponse =
        .ok (.arr [wakanda, atlantis]) ∧
      fetchRates (sampleEnv imageFails).ratesResponse = .ok wakandaRates ∧
      (transaction (sampleEnv imageFails) (.arr [wakanda, atlantis]) wakandaRates
        (getConnection oldWorld)).2 = .ok () ∧
      ((sampleEnv imageFails).fails .countQuery = true ∨
        (sampleEnv imageFails).fails .topQuery = true ∨
        (sampleEnv imageFails).fails .writeImage = true) ∧
      (handleRefresh (sampleEnv imageFails) oldWorld).1 =
        ⟨500, .failure "Internal server error" none⟩ ∧
      (handleRefresh (sampleEnv imageFails) oldWorld).2.store =
        (transaction (sampleEnv imageFails) (.arr [wakanda, atlantis]) wakandaRates
          (getConnection oldWorld)).1.store :=
  ⟨rfl, rfl, by decide!, Or.inr (Or.inr rfl),
    post_commit_failure (sampleEnv imageFails) oldWorld (.arr [wakanda, atlantis]) wakandaRates
      rfl rfl (by decide!) (Or.inr (Or.inr rfl))⟩

/-- C3 as stated fails: with both sources answering and every store operation succeeding,
the transaction commits, writing the image then fails, and the handler answers 500, not
200, while the store holds the two rows and the timestamp the refresh committed. -/
theorem post_commit_failure_changes_response :
    (transaction (sampleEnv imageFails) (.arr [wakanda, atlantis]) wakandaRates
        (getConnection oldWorld)).2 = .ok () ∧
      (handleRefresh (sampleEnv imageFails) oldWorld).1 =
        ⟨500, .failure "Internal server error" none⟩ ∧
      (handleRefresh (sampleEnv imageFails) oldWorld).1.status ≠ 200 ∧
      (handleRefresh (sampleEnv imageFails) oldWorld).2.store =
        ⟨[⟨.str (js "Wakanda"), .null, .null, .num 1000000, .str (js "WKD"), .num 10, .num 150000000,
            .null, 1761566400000⟩,
          ⟨.str (js "Atlantis"), .null, .null, .num 500, .null, .null, .num 0, .null,
            1761566400000⟩],
          [("last_refreshed_at", "2025-10-27T12:00:00.000Z")]⟩ ∧
      (handleRefresh (sampleEnv nothingFails) oldWorld).1 =
        ⟨200, .refreshed "Refresh completed" 2 "2025-10-27T12:00:00.000Z"⟩ := by
  decide!

/-- C7: in a refresh answered 200, the records upserted, one per entry of the payload, all
carry the one instant `now`; the metadata key `last_refreshed_at` holds that instant as an
ISO string, and the response returns the same string. -/
theorem one_timestamp_per_refresh (env : Env) (w : World)
    (h : (handleRefresh env w).1.status = 200) :
    ∃ countriesPayload rates items recs,
      fetchAllCountries env.countriesResponse = .ok countriesPayload ∧
      fetchRates env.ratesResponse = .ok rates ∧
      iterate countriesPayload = .ok items ∧
      loopRecords env rates items 0 0 = some recs ∧
      recs.length = items.length ∧
      (∀ r ∈ recs, r.last_refreshed_at = env.now) ∧
      (handleRefresh env w).2.store.countries = recs.foldl upsertRow w.store.countries ∧
      (handleRefresh env w).2.store.metadata.lookup "last_refreshed_at" =
        some (toISOString env.now) ∧
      (handleRefresh env w).1.body =
        .refreshed "Refresh completed" (handleRefresh env w).2.store.countries.length
          (toISOString env.now) := by
  cases hc : fetchAllCountries env.countriesResponse with
  | error e =>
    have := (handleRefresh_of_failed_fetch env w (Or.inl ⟨e, hc⟩)).1
    rw [this] at h
    cases h
  | ok countriesPayload =>
    cases hr : fetchRates env.ratesResponse with
    | error e =>
      have := (handleRefresh_of_failed_fetch env w (Or.inr ⟨e, hr⟩)).1
      rw [this] at h
      cases h
    | ok rates =>
      cases hrec : committedRecords env countriesPayload rates with
      | none =>
        have := (handleRefresh_not_committed env w hc hr hrec).1
        rw [this] at h
        cases h
      | some recs =>
        obtain ⟨a1, _, a3, a4⟩ := handleRefresh_committed env w hc hr hrec
        by_cases hpost : env.fails .countQuery = true ∨ env.fails .topQuery = true ∨
            env.fails .writeImage = true
        · rw [a3 hpost] at h
          cases h
        · obtain ⟨items, hit, hl, _⟩ := committedRecords_some hrec
          obtain ⟨f1, f2, _⟩ := loopRecords_facts env rates items 0 0 recs hl
          refine ⟨countriesPayload, rates, items, recs, rfl, rfl, hit, hl, f1, f2, ?_, ?_, ?_⟩
          · rw [a1]
          · rw [a1]
            exact lookup_upsertKey _ _ _
          · rw [a4 hpost, a1]

theorem one_timestamp_per_refresh_witness :
    (handleRefresh (sampleEnv nothingFails) oldWorld).1.status = 200 ∧
      ∃ countriesPayload rates items recs,
        fetchAllCountries (sampleEnv nothingFails).countriesResponse = .ok countriesPayload ∧
        fetchRates (sampleEnv nothingFails).ratesResponse = .ok rates ∧
        iterate countriesPayload = .ok items ∧
        loopRecords (sampleEnv nothingFails) rates items 0 0 = some recs ∧
        recs.length = items.length ∧
        (∀ r ∈ recs, r.last_refreshed_at = (sampleEnv nothingFails).now) ∧
        (handleRefresh (sampleEnv nothingFails) oldWorld).2.store.countries =
          recs.foldl upsertRow oldWorld.store.countries ∧
        (handleRefresh (sampleEnv nothingFails) oldWorld).2.store.metadata.lookup
          "last_refreshed_at" = some (toISOString (sampleEnv nothingFails).now) ∧
        (handleRefresh (sampleEnv nothingFails) oldWorld).1.body =
          .refreshed "Refresh completed"
            (handleRefresh (sampleEnv nothingFails) oldWorld).2.store.countries.length
            (toISOString (sampleEnv nothingFails).now) :=
  ⟨by decide!, one_timestamp_per_refresh (sampleEnv nothingFails) oldWorld (by decide!)⟩

/-! ## Upserting the same records again -/

theorem replaceBy_name (row r : CountryRecord) : (replaceBy row r).name = row.name := by
  unfold replaceBy
  by_cases h : row.name = r.name
  · simp [h]
  · simp [h]

theorem replaceBy_of_eq {row r : CountryRecord} (h : row.name = r.name) :
    replaceBy row r = r := by
  unfold replaceBy
  rw [if_pos h]

theorem replaceBy_of_ne {row r : CountryRecord} (h : row.name ≠ r.name) :
    replaceBy row r = row := by
  unfold replaceBy
  rw [if_neg h]

theorem foldl_replaceBy_name (recs : List CountryRecord) :
    ∀ row : CountryRecord, (recs.foldl replaceBy row).name = row.name := by
  induction recs with
  | nil => intro row; rfl
  | cons r t ih =>
    intro row
    rw [List.foldl_cons, ih, replaceBy_name]

theorem upsertRow_of_mem {rows : List CountryRecord} {r : CountryRecord}
    (h : r.name ∈ rows.map (fun row => row.name)) :
    upsertRow rows r = rows.map (fun row => replaceBy row r) := by
  unfold upsertRow replaceBy
  rw [if_pos h]

theorem mem_upsertRow {rows : List CountryRecord} {r x : CountryRecord}
    (h : x ∈ upsertRow rows r) : x = r ∨ (x ∈ rows ∧ x.name ≠ r.name) := by
  unfold upsertRow at h
  by_cases hm : r.name ∈ rows.map (fun row => row.name)
  · rw [if_pos hm] at h
    obtain ⟨row, hrow, hx⟩ := List.mem_map.mp h
    by_cases hn : row.name = r.name
    · rw [if_pos hn] at hx
      exact Or.inl hx.symm
    · rw [if_neg hn] at hx
      subst hx
      exact Or.inr ⟨hrow, hn⟩
  · rw [if_neg hm] at h
    rcases List.mem_append.mp h with h | h
    · refine Or.inr ⟨h, ?_⟩
      intro hn
      exact hm (List.mem_map.mpr ⟨x, h, hn⟩)
    · exact Or.inl (List.mem_singleton.mp h)

theorem names_upsertRow (rows : List CountryRecord) (r : CountryRecord) (n : JSValue) :
    n ∈ (upsertRow rows r).map (fun row => row.name) ↔
      n ∈ rows.map (fun row => row.name) ∨ n = r.name := by
  by_cases hm : r.name ∈ rows.map (fun row => row.name)
  · rw [upsertRow_of_mem hm, List.map_map]
    have : ((fun row : CountryRecord => row.name) ∘ fun row => replaceBy row r) =
        fun row => row.name := by
      funext row
      exact replaceBy_name row r
    rw [this]
    constructor
    · exact Or.inl
    · rintro (h | h)
      · exact h
      · rw [h]; exact hm
  · unfold upsertRow
    rw [if_neg hm]
    simp [List.mem_append]

theorem names_foldl_upsertRow (recs : List CountryRecord) :
    ∀ (rows : List CountryRecord) (n : JSValue),
      n ∈ (recs.foldl upsertRow rows).map (fun row => row.name) ↔
        n ∈ rows.map (fun row => row.name) ∨ n ∈ recs.map (fun r => r.name) := by
  induction recs with
  | nil => intro rows n; simp
  | cons r t ih =>
    intro rows n
    rw [List.foldl_cons, ih, names_upsertRow]
    simp only [List.map_cons, List.mem_cons]
    tauto

theorem foldl_upsertRow_of_names (recs : List CountryRecord) :
    ∀ rows : List CountryRecord, (∀ r ∈ recs, r.name ∈ rows.map (fun row => row.name)) →
      recs.foldl upsertRow rows = rows.map (fun row => recs.foldl replaceBy row) := by
  induction recs with
  | nil => intro rows _; simp
  | cons r t ih =>
    intro rows h
    have hr : r.name ∈ rows.map (fun row => row.name) := h r (List.mem_cons_self _ _)
    rw [List.foldl_cons, upsertRow_of_mem hr]
    rw [ih]
    · rw [List.map_map]
      rfl
    · intro x hx
      have hxn := h x (List.mem_cons_of_mem _ hx)
      rw [← upsertRow_of_mem hr]
      exact (names_upsertRow rows r x.name).mpr (Or.inl hxn)

theorem foldl_replaceBy_fixed (recs : List CountryRecord) :
    ∀ (rows : List CountryRecord) (row : CountryRecord),
      row ∈ recs.foldl upsertRow rows → recs.foldl replaceBy row = row := by
  induction recs using List.reverseRecOn with
  | nil => intro rows row _; rfl
  | append_singleton init r ih =>
    intro rows row h
    rw [List.foldl_append, List.foldl_cons, List.foldl_nil] at h
    rw [List.foldl_append, List.foldl_cons, List.foldl_nil]
    rcases mem_upsertRow h with h | ⟨hmem, hne⟩
    · subst h
      exact replaceBy_of_eq (foldl_replaceBy_name init row)
    · rw [ih rows row hmem]
      exact replaceBy_of_ne hne

theorem withTime_name (t : Nat) (r : CountryRecord) : (r.withTime t).name = r.name := rfl

theorem name_eq_of_withTime_eq {t : Nat} {x y : CountryRecord}
    (h : x.withTime t = y.withTime t) : x.name = y.name := by
  have := congrArg CountryRecord.name h
  simpa [withTime_name] using this

theorem foldl_replaceBy_withTime (t : Nat) (recs : List CountryRecord) :
    ∀ x y : CountryRecord, x.withTime 0 = y.withTime 0 →
      ((recs.map (CountryRecord.withTime t)).foldl replaceBy x).withTime 0 =
        (recs.foldl replaceBy y).withTime 0 := by
  induction recs with
  | nil => intro x y h; exact h
  | cons r rest ih =>
    intro x y h
    rw [List.map_cons, List.foldl_cons, List.foldl_cons]
    apply ih
    have hn := name_eq_of_withTime_eq h
    by_cases hr : y.name = r.name
    · rw [replaceBy_of_eq hr, replaceBy_of_eq (r := r.withTime t) (hn.trans hr)]
      rfl
    · rw [replaceBy_of_ne hr, replaceBy_of_ne (r := r.withTime t) (fun e => hr (hn ▸ e))]
      exact h

theorem upsert_again (t : Nat) (recs rows : List CountryRecord) :
    ((recs.map (CountryRecord.withTime t)).foldl upsertRow (recs.foldl upsertRow rows)).map
        (CountryRecord.withTime 0) =
      (recs.foldl upsertRow rows).map (CountryRecord.withTime 0) := by
  rw [foldl_upsertRow_of_names]
  · rw [List.map_map]
    apply List.map_congr_left
    intro row hrow
    show ((recs.map (CountryRecord.withTime t)).foldl replaceBy row).withTime 0 = row.withTime 0
    rw [foldl_replaceBy_withTime t recs row row rfl, foldl_replaceBy_fixed recs rows row hrow]
  · intro r hr
    obtain ⟨r0, hr0, rfl⟩ := List.mem_map.mp hr
    rw [withTime_name]
    exact (names_foldl_upsertRow recs rows r0.name).mpr
      (Or.inr (List.mem_map.mpr ⟨r0, hr0, rfl⟩))

theorem loopRecords_rerun (env : Env) (now2 : Nat) (fails2 : Op → Bool) (rates : Json) :
    ∀ (items : List Json) (i draws : Nat) (recs2 : List CountryRecord),
      loopRecords { env with now := now2, fails := fails2 } rates items i draws = some recs2 →
        (∃ recs, loopRecords env rates items i draws = some recs ∧
          recs2 = recs.map (CountryRecord.withTime now2)) ∨
        ∃ k, k < items.length ∧ env.fails (.upsertCountry (i + k)) = true := by
  intro items
  induction items with
  | nil =>
    intro i draws recs2 h
    simp only [loopRecords, Option.some.injEq] at h
    subst h
    exact Or.inl ⟨[], rfl, rfl⟩
  | cons c rest ih =>
    intro i draws recs2 h
    rw [loopRecords] at h
    simp only [countryParams_withTime rates env.now now2 env.random draws c] at h
    rw [loopRecords]
    cases hcp : countryParams rates env.now env.random draws c with
    | error e => simp [hcp, Except.map] at h
    | ok res =>
      obtain ⟨record, draws'⟩ := res
      simp only [hcp, Except.map] at h
      by_cases hbad2 : fails2 (.upsertCountry i) = true ∨ (record.withTime now2).name = .null
      · simp [hbad2] at h
      · simp only [hbad2, if_false] at h
        cases hrest2 : loopRecords { env with now := now2, fails := fails2 } rates rest (i + 1)
            draws' with
        | none => simp [hrest2] at h
        | some rest2 =>
          simp only [hrest2, Option.map_some', Option.some.injEq] at h
          subst h
          cases hf : env.fails (.upsertCountry i) with
          | true => exact Or.inr ⟨0, by simp, by simpa using hf⟩
          | false =>
            have hname : ¬ record.name = .null := fun hn => hbad2 (Or.inr hn)
            simp only [Bool.false_eq_true, hname, or_self, if_false]
            rcases ih (i + 1) draws' rest2 hrest2 with ⟨recs, hrecs, hmap⟩ | ⟨k, hk, hfk⟩
            · refine Or.inl ⟨record :: recs, by simp [hrecs], ?_⟩
              rw [hmap]
              rfl
            · refine Or.inr ⟨k + 1, by simpa using hk, ?_⟩
              rw [show i + (k + 1) = i + 1 + k by omega]
              exact hfk

/-- C10: run the refresh twice in a row on the same responses of both sources and the same
values of `Math.random()`, the second run at any instant. Provided a store operation
of the transaction that fails in the first run fails in the second as well (so in
particular when the first run meets no such failure), the country rows after the second run
are those after the first, in the same order and equal in every field but
`last_refreshed_at`: the upsert by name overwrites and adds no row. -/
theorem refresh_twice (env : Env) (now2 : Nat) (fails2 : Op → Bool) (w : World)
    (hfaults : ∀ op, op.inTransaction = true → env.fails op = true → fails2 op = true) :
    (handleRefresh { env with now := now2, fails := fails2 }
        (handleRefresh env w).2).2.store.countries.map (CountryRecord.withTime 0) =
      (handleRefresh env w).2.store.countries.map (CountryRecord.withTime 0) := by
  cases hc : fetchAllCountries env.countriesResponse with
  | error e =>
    have h2 := (handleRefresh_of_failed_fetch { env with now := now2, fails := fails2 }
      (handleRefresh env w).2 (Or.inl ⟨e, hc⟩)).2
    rw [h2]
  | ok countriesPayload =>
    cases hr : fetchRates env.ratesResponse with
    | error e =>
      have h2 := (handleRefresh_of_failed_fetch { env with now := now2, fails := fails2 }
        (handleRefresh env w).2 (Or.inr ⟨e, hr⟩)).2
      rw [h2]
    | ok rates =>
      have hc2 : fetchAllCountries
          ({ env with now := now2, fails := fails2 } : Env).countriesResponse =
            .ok countriesPayload := hc
      have hr2 : fetchRates ({ env with now := now2, fails := fails2 } : Env).ratesResponse =
          .ok rates := hr
      cases hrec2 : committedRecords { env with now := now2, fails := fails2 } countriesPayload
          rates with
      | none =>
        rw [(handleRefresh_not_committed _ (handleRefresh env w).2 hc2 hr2 hrec2).2.1]
      | some recs2 =>
        obtain ⟨items, hit, hl2, hb2, hm2, hcm2⟩ := committedRecords_some hrec2
        have hb : env.fails .beginTransaction = false := by
          cases hx : env.fails .beginTransaction
          · rfl
          · have := hfaults .beginTransaction rfl hx
            rw [show fails2 .beginTransaction = false from hb2] at this
            cases this
        have hm : env.fails .upsertMetadata = false := by
          cases hx : env.fails .upsertMetadata
          · rfl
          · have := hfaults .upsertMetadata rfl hx
            rw [show fails2 .upsertMetadata = false from hm2] at this
            cases this
        have hcm : env.fails .commit = false := by
          cases hx : env.fails .commit
          · rfl
          · have := hfaults .commit rfl hx
            rw [show fails2 .commit = false from hcm2] at this
            cases this
        rcases loopRecords_rerun env now2 fails2 rates items 0 0 recs2 hl2 with
          ⟨recs, hl, hmap⟩ | ⟨k, hk, hfk⟩
        · have hrec : committedRecords env countriesPayload rates = some recs := by
            unfold committedRecords
            simp [hb, hit, hl, hm, hcm]
          rw [(handleRefresh_committed _ (handleRefresh env w).2 hc2 hr2 hrec2).1,
            (handleRefresh_committed env w hc hr hrec).1, hmap]
          exact upsert_again now2 recs w.store.countries
        · have h1 := hfaults (.upsertCountry (0 + k)) rfl hfk
          have h2 := (loopRecords_facts _ rates items 0 0 recs2 hl2).2.2 k hk
          rw [show ({ env with now := now2, fails := fails2 } : Env).fails
            (.upsertCountry (0 + k)) = fails2 (.upsertCountry (0 + k)) from rfl, h1] at h2
          cases h2

theorem refresh_twice_witness :
    (∀ op, op.inTransaction = true → (sampleEnv nothingFails).fails op = true →
        imageFails op = true) ∧
      (handleRefresh { sampleEnv nothingFails with now := 1761570000000, fails := imageFails }
          (handleRefresh (sampleEnv nothingFails) oldWorld).2).2.store.countries.map
            (CountryRecord.withTime 0) =
        (handleRefresh (sampleEnv nothingFails) oldWorld).2.store.countries.map
          (CountryRecord.withTime 0) :=
  ⟨(fun _ _ h => by cases h),
    refresh_twice (sampleEnv nothingFails) 1761570000000 imageFails oldWorld
      (fun _ _ h => by cases h)⟩

end CountryCache
